import Mathlib

/-!
Shallow embedding of the STGCN layer library (`model/layers.py` together with
the configuration logic of `main.py`) and proofs about it.

Modelling conventions:
* Activation tensors are `Tensor4`: four explicit dimension sizes plus a total
  data function `ℕ → ℕ → ℕ → ℕ → ℚ`.  Entries outside the recorded shape are
  deterministic garbage; every statement quantifies only over meaningful
  indices or fixes concrete ones.
* Machine floats are modelled by `ℚ`.  Transcendental library functions
  (`nn.Sigmoid`, `nn.Tanh`) are abstract parameters `σ τ : ℚ → ℚ` stored in
  the module at construction, mirroring the `nn.Sigmoid()` / `nn.Tanh()`
  fields of the Python classes.  `nn.ReLU`, `nn.LeakyReLU` (slope 1/100) and
  `nn.SiLU` (`x * sigmoid x`) are concrete.
* PyTorch runtime shape errors (channel-count mismatch of a convolution,
  kernel larger than the spatial extent) and the explicit `raise` statements
  of the source are modelled by `Option`: `none` is a raised error.
* `nn.MultiheadAttention`, `nn.LayerNorm` and `nn.Dropout` are external
  library collaborators; their value-level behaviour is abstract (a function
  field supplied at construction), while `nn.LayerNorm` / `nn.Dropout` are
  shape-preserving by contract and are modelled as maps on the data function
  only.  Contiguity/stride diagnostics of `Tensor.view` are memory-layout
  concerns and are not modelled; `view`/`reshape` use row-major semantics.
-/

/-- A 4-axis tensor: dimension sizes `s0 s1 s2 s3` (for activations the axes
are `[batch, channel, time, vertex]`) and a total data function. -/
structure Tensor4 where
  s0 : ℕ
  s1 : ℕ
  s2 : ℕ
  s3 : ℕ
  data : ℕ → ℕ → ℕ → ℕ → ℚ

/-- A 3-axis tensor (used around the attention fusion path). -/
structure Tensor3 where
  s0 : ℕ
  s1 : ℕ
  s2 : ℕ
  data : ℕ → ℕ → ℕ → ℚ

/-- Elementwise map. -/
def tmap (f : ℚ → ℚ) (x : Tensor4) : Tensor4 :=
  ⟨x.s0, x.s1, x.s2, x.s3, fun b c t v => f (x.data b c t v)⟩

/-- Elementwise addition (shape taken from the first argument, as in
`torch.add` on equally shaped tensors). -/
def tadd (x y : Tensor4) : Tensor4 :=
  ⟨x.s0, x.s1, x.s2, x.s3, fun b c t v => x.data b c t v + y.data b c t v⟩

/-- Elementwise multiplication (`torch.mul`). -/
def tmul (x y : Tensor4) : Tensor4 :=
  ⟨x.s0, x.s1, x.s2, x.s3, fun b c t v => x.data b c t v * y.data b c t v⟩

/-- Elementwise subtraction (shape taken from the first argument). -/
def tsub (x y : Tensor4) : Tensor4 :=
  ⟨x.s0, x.s1, x.s2, x.s3, fun b c t v => x.data b c t v - y.data b c t v⟩

/-- Python slice `x[:, :, s:, :]` along the time axis. -/
def sliceTimeFrom (s : ℕ) (x : Tensor4) : Tensor4 :=
  ⟨x.s0, x.s1, x.s2 - s, x.s3, fun b c t v => x.data b c (t + s) v⟩

/-- Python slice `x[:, :n, :, :]` along the channel axis. -/
def sliceChanFirst (n : ℕ) (x : Tensor4) : Tensor4 :=
  ⟨x.s0, min n x.s1, x.s2, x.s3, x.data⟩

/-- Python slice `x[:, -n:, :, :]` along the channel axis.  For `n = 0`
Python's `-0` degenerates to the whole tensor. -/
def sliceChanLast (n : ℕ) (x : Tensor4) : Tensor4 :=
  if n = 0 then x
  else ⟨x.s0, min n x.s1, x.s2, x.s3, fun b c t v => x.data b (c + (x.s1 - n)) t v⟩

/-- `F.pad(input, (pV, 0, pT, 0))`: left-only padding of the last two axes. -/
def padLeft2 (pT pV : ℕ) (x : Tensor4) : Tensor4 :=
  ⟨x.s0, x.s1, x.s2 + pT, x.s3 + pV,
   fun b c t v => if pT ≤ t ∧ pV ≤ v then x.data b c (t - pT) (v - pV) else 0⟩

/-- `F.pad(x, (0, 0, lo, hi), "constant", 0)`: zero-pad the time axis by `lo`
steps on the left and `hi` on the right. -/
def padTimeBoth (lo hi : ℕ) (x : Tensor4) : Tensor4 :=
  ⟨x.s0, x.s1, lo + x.s2 + hi, x.s3,
   fun b c t v => if lo ≤ t ∧ t < lo + x.s2 then x.data b c (t - lo) v else 0⟩

/-- `torch.permute(x, (0, 2, 3, 1))`. -/
def permute_0231 (x : Tensor4) : Tensor4 :=
  ⟨x.s0, x.s2, x.s3, x.s1, fun a b c d => x.data a d b c⟩

/-- `x.permute(0, 3, 1, 2)`. -/
def permute_0312 (x : Tensor4) : Tensor4 :=
  ⟨x.s0, x.s3, x.s1, x.s2, fun a b c d => x.data a c d b⟩

/-- `x.permute(0, 2, 1)` on a 3-axis tensor. -/
def permute3_021 (x : Tensor3) : Tensor3 :=
  ⟨x.s0, x.s2, x.s1, fun a b c => x.data a c b⟩

/-- `torch.cat([a, b, c], dim=1)`. -/
def cat3Chan (a b c : Tensor4) : Tensor4 :=
  ⟨a.s0, a.s1 + b.s1 + c.s1, a.s2, a.s3,
   fun bb ch t v =>
     if ch < a.s1 then a.data bb ch t v
     else if ch < a.s1 + b.s1 then b.data bb (ch - a.s1) t v
     else c.data bb (ch - a.s1 - b.s1) t v⟩

/-- Row-major (C-contiguous) linear-index read of a 4-axis tensor. -/
def t4get (x : Tensor4) (L : ℕ) : ℚ :=
  x.data (L / (x.s1 * x.s2 * x.s3)) (L / (x.s2 * x.s3) % x.s1) (L / x.s3 % x.s2) (L % x.s3)

/-- Row-major linear-index read of a 3-axis tensor. -/
def t3get (x : Tensor3) (L : ℕ) : ℚ :=
  x.data (L / (x.s1 * x.s2)) (L / x.s2 % x.s1) (L % x.s2)

/-- `x.reshape(n0, n1, n2)` with row-major semantics. -/
def reshape43 (x : Tensor4) (n0 n1 n2 : ℕ) : Tensor3 :=
  ⟨n0, n1, n2, fun a n f => t4get x ((a * n1 + n) * n2 + f)⟩

/-- `y.view(n0, n1, n2, n3)` with row-major semantics (stride diagnostics of
`Tensor.view` are not modelled). -/
def view34 (y : Tensor3) (n0 n1 n2 n3 : ℕ) : Tensor4 :=
  ⟨n0, n1, n2, n3, fun b c t v => t3get y (((b * n1 + c) * n2 + t) * n3 + v)⟩

/-- `nn.ReLU`. -/
def reluQ (a : ℚ) : ℚ := max a 0

/-- `nn.LeakyReLU` with the default negative slope `0.01 = 1/100`. -/
def leakyReluQ (a : ℚ) : ℚ := if a < 0 then a / 100 else a

/-- Value of an optional bias vector (absent bias contributes `0`). -/
def biasVal (o : Option (ℕ → ℚ)) (j : ℕ) : ℚ :=
  match o with
  | some f => f j
  | none => 0

/-- `torch.add(x, bias)` broadcasting a `[c_out]` bias over the last axis;
`none` means the module was built with `bias=False` and adds nothing. -/
def addBiasLast (o : Option (ℕ → ℚ)) (x : Tensor4) : Tensor4 :=
  match o with
  | some f => ⟨x.s0, x.s1, x.s2, x.s3, fun b t h j => x.data b t h j + f j⟩
  | none => x

/-- Replace the data function, keeping the shape: model of shape-preserving,
value-abstract collaborators (`nn.LayerNorm` scaling, `nn.Dropout`). -/
def applyData (f : (ℕ → ℕ → ℕ → ℕ → ℚ) → (ℕ → ℕ → ℕ → ℕ → ℚ)) (x : Tensor4) : Tensor4 :=
  ⟨x.s0, x.s1, x.s2, x.s3, f x.data⟩

/-- The externally supplied graph operator matrix (`self.gso`): a `[n, n]`
matrix with its size. -/
structure GSO where
  n : ℕ
  entry : ℕ → ℕ → ℚ

/-- `torch.einsum('hi,btij->bthj', g, x)`: contraction of the graph operator
over the vertex axis of a `[batch, time, vertex, channel]` tensor. -/
def gsoApply (g : GSO) (x : Tensor4) : Tensor4 :=
  ⟨x.s0, x.s1, g.n, x.s3,
   fun b t h j => ∑ i ∈ Finset.range g.n, g.entry h i * x.data b t i j⟩

/-- `layers.py` `Align`: channel-count adapter with a learned 1x1 convolution
(`self.align_conv`, bias always present per `nn.Conv2d` default). -/
structure Align where
  c_in : ℕ
  c_out : ℕ
  weight : ℕ → ℕ → ℚ
  bias : ℕ → ℚ

/-- `Align.forward`: 1x1 convolution when shrinking (`none` models the
channel-mismatch error of `nn.Conv2d`), zero-channel concatenation when
growing, identity otherwise. -/
def Align.forward (m : Align) (x : Tensor4) : Option Tensor4 :=
  if m.c_out < m.c_in then
    if x.s1 = m.c_in then
      some ⟨x.s0, m.c_out, x.s2, x.s3,
            fun b c t v => m.bias c + ∑ i ∈ Finset.range m.c_in, m.weight c i * x.data b i t v⟩
    else none
  else if m.c_in < m.c_out then
    some ⟨x.s0, x.s1 + (m.c_out - m.c_in), x.s2, x.s3,
          fun b c t v => if c < x.s1 then x.data b c t v else 0⟩
  else some x

/-- `layers.py` `CausalConv2d` with the defaults used by this repository
(`stride=1`, `groups=1`, `bias=True`); kernel `(kT, kV)`, dilation `(dT, dV)`. -/
structure CausalConv2d where
  in_channels : ℕ
  out_channels : ℕ
  kT : ℕ
  kV : ℕ
  dT : ℕ
  dV : ℕ
  enable_padding : Bool
  weight : ℕ → ℕ → ℕ → ℕ → ℚ
  bias : ℕ → ℚ

/-- Unpadded 2-D cross-correlation (what `nn.Conv2d` computes with
`padding=0`). -/
def conv2dCore (m : CausalConv2d) (x : Tensor4) : Tensor4 :=
  ⟨x.s0, m.out_channels, x.s2 - (m.kT - 1) * m.dT, x.s3 - (m.kV - 1) * m.dV,
   fun b co t v => m.bias co +
     ∑ ci ∈ Finset.range m.in_channels, ∑ i ∈ Finset.range m.kT, ∑ j ∈ Finset.range m.kV,
       m.weight co ci i j * x.data b ci (t + i * m.dT) (v + j * m.dV)⟩

/-- `CausalConv2d.forward`: optional left-only padding of the last two axes,
then the padding-free convolution.  `none` models the `nn.Conv2d` runtime
errors (channel mismatch, kernel exceeding the spatial extent). -/
def CausalConv2d.forward (m : CausalConv2d) (x : Tensor4) : Option Tensor4 :=
  let xp := if m.enable_padding then padLeft2 ((m.kT - 1) * m.dT) ((m.kV - 1) * m.dV) x else x
  if x.s1 = m.in_channels ∧ (m.kT - 1) * m.dT + 1 ≤ xp.s2 ∧ (m.kV - 1) * m.dV + 1 ≤ xp.s3
  then some (conv2dCore m xp) else none

/-- `layers.py` `TemporalConvLayer`. -/
structure TemporalConvLayer where
  Kt : ℕ
  c_in : ℕ
  c_out : ℕ
  n_vertex : ℕ
  act_func : String
  align : Align
  causal_conv : CausalConv2d
  sigmoid : ℚ → ℚ
  tanh : ℚ → ℚ
  relu : ℚ → ℚ
  leaky_relu : ℚ → ℚ
  silu : ℚ → ℚ

/-- `TemporalConvLayer.__init__`: the causal convolution has `2*c_out` output
channels for the gated activations and `c_out` otherwise; kernel `(Kt, 1)`,
no padding, dilation 1. -/
def mkTemporalConvLayer (Kt c_in c_out nv : ℕ) (act : String)
    (aW : ℕ → ℕ → ℚ) (aB : ℕ → ℚ) (cW : ℕ → ℕ → ℕ → ℕ → ℚ) (cB : ℕ → ℚ)
    (σ τ : ℚ → ℚ) : TemporalConvLayer :=
  { Kt := Kt, c_in := c_in, c_out := c_out, n_vertex := nv, act_func := act,
    align := ⟨c_in, c_out, aW, aB⟩,
    causal_conv :=
      { in_channels := c_in,
        out_channels := if act = "glu" ∨ act = "gtu" then 2 * c_out else c_out,
        kT := Kt, kV := 1, dT := 1, dV := 1, enable_padding := false,
        weight := cW, bias := cB },
    sigmoid := σ, tanh := τ, relu := reluQ, leaky_relu := leakyReluQ,
    silu := fun a => a * σ a }

/-- The activation/gating part of `TemporalConvLayer.forward`, given the
aligned input `a` and the convolution output `xc`.  The final `else` branch
models `raise NotImplementedError` for an unsupported activation name. -/
def TemporalConvLayer.gate (m : TemporalConvLayer) (a xc : Tensor4) : Option Tensor4 :=
  let x_in := sliceTimeFrom (m.Kt - 1) a
  if m.act_func = "glu" ∨ m.act_func = "gtu" then
    let x_p := sliceChanFirst m.c_out xc
    let x_q := sliceChanLast m.c_out xc
    if m.act_func = "glu" then some (tmul (tadd x_p x_in) (tmap m.sigmoid x_q))
    else some (tmul (tmap m.tanh (tadd x_p x_in)) (tmap m.sigmoid x_q))
  else if m.act_func = "relu" then some (tmap m.relu (tadd xc x_in))
  else if m.act_func = "leaky_relu" then some (tmap m.leaky_relu (tadd xc x_in))
  else if m.act_func = "silu" then some (tmap m.silu (tadd xc x_in))
  else none

/-- `TemporalConvLayer.forward`: `x_in = Align(x)[:, :, Kt-1:, :]`, the causal
convolution of `x`, then the selected gating. -/
def TemporalConvLayer.forward (m : TemporalConvLayer) (x : Tensor4) : Option Tensor4 :=
  (m.align.forward x).bind fun a =>
  (m.causal_conv.forward x).bind fun xc =>
  m.gate a xc

/-- `layers.py` `ChebGraphConv`: weight tensor of shape `[Ks, c_in, c_out]`,
optional bias of shape `[c_out]`. -/
structure ChebGraphConv where
  c_in : ℕ
  c_out : ℕ
  Ks : ℕ
  gso : GSO
  bias : Option (ℕ → ℚ)
  weight : ℕ → ℕ → ℕ → ℚ

/-- The Chebyshev basis terms built by `ChebGraphConv.forward`:
`x_0 = x`, `x_1 = einsum('hi,btij->bthj', gso, x)`, and the loop body
`x_list.append(einsum('hi,btij->bthj', 2*gso, x_list[k-1]) - x_list[k-2])`. -/
def chebT (g : GSO) (x : Tensor4) : ℕ → Tensor4
  | 0 => x
  | 1 => gsoApply g x
  | k + 2 =>
      tsub (gsoApply (⟨g.n, fun a b => 2 * g.entry a b⟩ : GSO) (chebT g x (k + 1)))
        (chebT g x k)

/-- `ChebGraphConv.forward`: permute to `[batch, time, vertex, channel]`,
build the Chebyshev basis, stack it and contract with the weight via
`einsum('btkhi,kij->bthj', ...)`, then add the bias when present.  `Ks = 0`
models the `raise ValueError` branch (`Ks - 1 < 0` for a Python int). -/
def ChebGraphConv.forward (m : ChebGraphConv) (x4 : Tensor4) : Option Tensor4 :=
  let xp := permute_0231 x4
  if m.Ks = 0 then none
  else some (addBiasLast m.bias
    ⟨xp.s0, xp.s1, xp.s2, m.c_out,
     fun b t h j => ∑ k ∈ Finset.range m.Ks, ∑ i ∈ Finset.range m.c_in,
       (chebT m.gso xp k).data b t h i * m.weight k i j⟩)

/-- `layers.py` `GraphConv` (first-order graph convolution): weight of shape
`[c_in, c_out]`, optional bias. -/
structure GraphConv where
  c_in : ℕ
  c_out : ℕ
  gso : GSO
  bias : Option (ℕ → ℚ)
  weight : ℕ → ℕ → ℚ

/-- `GraphConv.forward`: `first_mul = einsum('hi,btij->bthj', gso, x)`,
`second_mul = einsum('bthi,ij->bthj', first_mul, weight)`, plus bias. -/
def GraphConv.forward (m : GraphConv) (x4 : Tensor4) : Option Tensor4 :=
  let xp := permute_0231 x4
  let fm := gsoApply m.gso xp
  some (addBiasLast m.bias
    ⟨fm.s0, fm.s1, fm.s2, m.c_out,
     fun b t h j => ∑ i ∈ Finset.range m.c_in, fm.data b t h i * m.weight i j⟩)

/-- `layers.py` `GraphConvLayer`.  The source sets the `cheb_graph_conv` /
`graph_conv` attribute only in the matching branch of `__init__`; an absent
attribute is `none`. -/
structure GraphConvLayer where
  graph_conv_type : String
  c_in : ℕ
  c_out : ℕ
  Ks : ℕ
  align : Align
  gso : GSO
  cheb_graph_conv : Option ChebGraphConv
  graph_conv : Option GraphConv

/-- `GraphConvLayer.__init__`: builds `Align(c_in, c_out)` and the selected
graph convolution with `c_out` input and output channels.  No branch raises:
an unknown `graph_conv_type` just leaves both attributes unset. -/
def mkGraphConvLayer (gct : String) (c_in c_out Ks : ℕ) (g : GSO) (bias : Bool)
    (aW : ℕ → ℕ → ℚ) (aB : ℕ → ℚ) (chW : ℕ → ℕ → ℕ → ℚ) (gW : ℕ → ℕ → ℚ)
    (bW : ℕ → ℚ) : GraphConvLayer :=
  { graph_conv_type := gct, c_in := c_in, c_out := c_out, Ks := Ks,
    align := ⟨c_in, c_out, aW, aB⟩, gso := g,
    cheb_graph_conv :=
      if gct = "cheb_graph_conv" then
        some ⟨c_out, c_out, Ks, g, if bias then some bW else none, chW⟩
      else none,
    graph_conv :=
      if gct = "graph_conv" then
        some ⟨c_out, c_out, g, if bias then some bW else none, gW⟩
      else none }

/-- `GraphConvLayer.forward`: align, apply the selected graph convolution,
permute back with `(0, 3, 1, 2)` and add the residual `x_gc + x_gc_in`.
For an unknown `graph_conv_type` the local `x_gc` is never assigned and the
forward pass raises (`none`). -/
def GraphConvLayer.forward (m : GraphConvLayer) (x : Tensor4) : Option Tensor4 :=
  (m.align.forward x).bind fun x_gc_in =>
  (if m.graph_conv_type = "cheb_graph_conv" then
     match m.cheb_graph_conv with
     | some c => c.forward x_gc_in
     | none => none
   else if m.graph_conv_type = "graph_conv" then
     match m.graph_conv with
     | some c => c.forward x_gc_in
     | none => none
   else none).bind fun x_gc =>
  some (tadd (permute_0312 x_gc) x_gc_in)

/-- `nn.Linear(in_features, out_features, bias)`. -/
structure Linear where
  in_features : ℕ
  out_features : ℕ
  weight : ℕ → ℕ → ℚ
  bias : Option (ℕ → ℚ)

/-- `nn.Linear` applied to the last axis of a 3-axis tensor:
`y_j = sum_i x_i * W[j, i] + b_j`. -/
def linApply3 (f : Linear) (x : Tensor3) : Tensor3 :=
  ⟨x.s0, x.s1, f.out_features,
   fun a n j => biasVal f.bias j + ∑ i ∈ Finset.range f.in_features, x.data a n i * f.weight j i⟩

/-- `nn.Linear` applied to the last axis of a 4-axis tensor. -/
def linApply4 (f : Linear) (x : Tensor4) : Tensor4 :=
  ⟨x.s0, x.s1, x.s2, f.out_features,
   fun b c t j => biasVal f.bias j + ∑ i ∈ Finset.range f.in_features, x.data b c t i * f.weight j i⟩

/-- `layers.py` `MultiHeadSelfAttention`, wrapping `nn.MultiheadAttention`
(`batch_first=True`).  The wrapped library layer is an external collaborator:
its value-level behaviour is the abstract function `attention_layer` taking
query, key, value, `key_padding_mask` and `attn_mask` and returning the
output/weights pair. -/
structure MultiHeadSelfAttention where
  hidden_dim : ℕ
  num_heads : ℕ
  attention_layer : Tensor3 → Tensor3 → Tensor3 → Option Tensor3 → Option Tensor3 →
    Tensor3 × Tensor3

/-- `MultiHeadSelfAttention.forward`: calls the wrapped attention with
`query = key = value = x` and the given masks. -/
def MultiHeadSelfAttention.forward (m : MultiHeadSelfAttention) (x : Tensor3)
    (key_padding_mask attention_mask : Option Tensor3) : Tensor3 × Tensor3 :=
  m.attention_layer x x x key_padding_mask attention_mask

/-- `nn.LayerNorm` over the trailing axes: shape-preserving by contract; the
value-level normalisation (an external library computation involving a square
root) is the abstract data map `fn`. -/
structure LayerNormM where
  fn : (ℕ → ℕ → ℕ → ℕ → ℚ) → (ℕ → ℕ → ℕ → ℕ → ℚ)

/-- Apply a `LayerNormM`: same shape, abstract values. -/
def LayerNormM.forward (m : LayerNormM) (x : Tensor4) : Tensor4 :=
  applyData m.fn x

/-- The learned / configured state of one `layers.py` `STConvBlock`
(`TGTND` structure, with the optional attention fusion of the STAGCN
variant).  `attn` and `fcn` exist only when `use_attn == "STAGCN"`. -/
structure STConvBlock where
  tmp_conv1 : TemporalConvLayer
  graph_conv : GraphConvLayer
  tmp_conv2 : TemporalConvLayer
  use_attn : String
  attn : Option MultiHeadSelfAttention
  fcn : Option Linear
  n_his : ℕ
  l : ℕ
  tc2_ln : LayerNormM
  dropout : (ℕ → ℕ → ℕ → ℕ → ℚ) → (ℕ → ℕ → ℕ → ℕ → ℚ)

/-- Parameter bundle for `STConvBlock.__init__` (weights, biases, and the
abstract external collaborators). -/
structure STBlockParams where
  t1aW : ℕ → ℕ → ℚ
  t1aB : ℕ → ℚ
  t1cW : ℕ → ℕ → ℕ → ℕ → ℚ
  t1cB : ℕ → ℚ
  gaW : ℕ → ℕ → ℚ
  gaB : ℕ → ℚ
  chW : ℕ → ℕ → ℕ → ℚ
  gW : ℕ → ℕ → ℚ
  gB : ℕ → ℚ
  t2aW : ℕ → ℕ → ℚ
  t2aB : ℕ → ℚ
  t2cW : ℕ → ℕ → ℕ → ℕ → ℚ
  t2cB : ℕ → ℚ
  attnF : Tensor3 → Tensor3 → Tensor3 → Option Tensor3 → Option Tensor3 → Tensor3 × Tensor3
  fcnW : ℕ → ℕ → ℚ
  fcnB : ℕ → ℚ
  lnFn : (ℕ → ℕ → ℕ → ℕ → ℚ) → (ℕ → ℕ → ℕ → ℕ → ℚ)
  dropFn : (ℕ → ℕ → ℕ → ℕ → ℚ) → (ℕ → ℕ → ℕ → ℕ → ℚ)

/-- `STConvBlock.__init__`: two temporal layers around a graph-conv layer,
and for the `"STAGCN"` variant an attention layer with
`hidden_dim = 144*(n_his - 2*(l+1))` and a linear head
`144*(n_his - 2*(l+1)) -> 64*(n_his - 2*(l+1) - 2)`. -/
def mkSTConvBlock (Kt Ks nv lbc c0 c1 c2 : ℕ) (act gct : String) (g : GSO)
    (bias : Bool) (n_his l : ℕ) (use_attn : String) (p : STBlockParams)
    (σ τ : ℚ → ℚ) : STConvBlock :=
  { tmp_conv1 := mkTemporalConvLayer Kt lbc c0 nv act p.t1aW p.t1aB p.t1cW p.t1cB σ τ,
    graph_conv := mkGraphConvLayer gct c0 c1 Ks g bias p.gaW p.gaB p.chW p.gW p.gB,
    tmp_conv2 := mkTemporalConvLayer Kt c1 c2 nv act p.t2aW p.t2aB p.t2cW p.t2cB σ τ,
    use_attn := use_attn,
    attn :=
      if use_attn = "STAGCN" then
        some ⟨144 * (n_his - 2 * (l + 1)), 1, p.attnF⟩
      else none,
    fcn :=
      if use_attn = "STAGCN" then
        some ⟨144 * (n_his - 2 * (l + 1)), 64 * (n_his - 2 * (l + 1) - 2), p.fcnW, some p.fcnB⟩
      else none,
    n_his := n_his, l := l, tc2_ln := ⟨p.lnFn⟩, dropout := p.dropFn }

/-- The attention-fusion branch of `STConvBlock.forward` (the
`if self.use_attn == "STAGCN"` body): zero-pad the second temporal output by
one time step on each side, concatenate the three intermediates along the
channel axis, `reshape(batch, num_nodes, channels*embed_dim)` in row-major
order, run self-attention, apply `fcn`, then `permute(0, 2, 1)` and
`view(batch, -1, embed_dim - 2, num_nodes)`. -/
def stagcnFusion (A : MultiHeadSelfAttention) (F : Linear)
    (tmp1 graph1 x2 : Tensor4) : Tensor4 :=
  let tmp2 := padTimeBoth 1 1 x2
  let concat := cat3Chan tmp1 graph1 tmp2
  let resh := reshape43 concat concat.s0 concat.s3 (concat.s1 * concat.s2)
  let attn_out := (A.forward resh none none).1
  let attn_out2 := linApply3 F attn_out
  let p := permute3_021 attn_out2
  view34 p concat.s0 ((p.s0 * p.s1 * p.s2) / (concat.s0 * (concat.s2 - 2) * concat.s3))
    (concat.s2 - 2) concat.s3

/-- `STConvBlock.forward`: temporal gate, graph conv, ReLU, temporal gate,
optional attention fusion, layer norm over `(vertex, channel)` via the
`(0,2,3,1)` / `(0,3,1,2)` permutation sandwich, then dropout. -/
def STConvBlock.forward (m : STConvBlock) (x : Tensor4) : Option Tensor4 :=
  (m.tmp_conv1.forward x).bind fun tmp1 =>
  (m.graph_conv.forward tmp1).bind fun g1 =>
  let graph1 := tmap reluQ g1
  (m.tmp_conv2.forward graph1).bind fun x2 =>
  (if m.use_attn = "STAGCN" then
     match m.attn, m.fcn with
     | some A, some F => some (stagcnFusion A F tmp1 graph1 x2)
     | _, _ => none
   else some x2).bind fun xo =>
  some (applyData m.dropout (permute_0312 (m.tc2_ln.forward (permute_0231 xo))))

/-- `layers.py` `OutputBlock` (`TNFF` structure). -/
structure OutputBlock where
  tmp_conv1 : TemporalConvLayer
  fc1 : Linear
  fc2 : Linear
  tc1_ln : LayerNormM
  dropout : (ℕ → ℕ → ℕ → ℕ → ℚ) → (ℕ → ℕ → ℕ → ℕ → ℚ)

/-- Parameter bundle for `OutputBlock.__init__`. -/
structure OutParams where
  taW : ℕ → ℕ → ℚ
  taB : ℕ → ℚ
  tcW : ℕ → ℕ → ℕ → ℕ → ℚ
  tcB : ℕ → ℚ
  fc1W : ℕ → ℕ → ℚ
  fc1B : ℕ → ℚ
  fc2W : ℕ → ℕ → ℚ
  fc2B : ℕ → ℚ
  lnFn : (ℕ → ℕ → ℕ → ℕ → ℚ) → (ℕ → ℕ → ℕ → ℕ → ℚ)
  dropFn : (ℕ → ℕ → ℕ → ℕ → ℚ) → (ℕ → ℕ → ℕ → ℕ → ℚ)

/-- The fixed trial tensor `torch.zeros(1, 64, 26, 4)` that
`OutputBlock.__init__` pushes through its temporal layer. -/
def zTrial : Tensor4 := ⟨1, 64, 26, 4, fun _ _ _ _ => 0⟩

/-- `OutputBlock.__init__`: builds the temporal layer and immediately runs it
on `torch.zeros(1, 64, 26, 4)`; any error raised by that trial forward makes
construction itself fail (`none`). -/
def mkOutputBlock (Ko lbc c0 c1 endc nv : ℕ) (act : String) (bias : Bool)
    (p : OutParams) (σ τ : ℚ → ℚ) : Option OutputBlock :=
  let t1 := mkTemporalConvLayer Ko lbc c0 nv act p.taW p.taB p.tcW p.tcB σ τ
  match t1.forward zTrial with
  | none => none
  | some _ =>
      some { tmp_conv1 := t1,
             fc1 := ⟨c0, c1, p.fc1W, if bias then some p.fc1B else none⟩,
             fc2 := ⟨c1, endc, p.fc2W, if bias then some p.fc2B else none⟩,
             tc1_ln := ⟨p.lnFn⟩,
             dropout := p.dropFn }

/-- `OutputBlock.forward`: temporal layer, layer norm on the
`(0,2,3,1)`-permuted tensor, `fc1`, ReLU, `fc2`, and the final
`(0,3,1,2)` permutation.  (`self.dropout` is declared but never used in the
source forward.) -/
def OutputBlock.forward (m : OutputBlock) (x : Tensor4) : Option Tensor4 :=
  (m.tmp_conv1.forward x).bind fun x1 =>
  let x2 := m.tc1_ln.forward (permute_0231 x1)
  let x3 := linApply4 m.fc1 x2
  let x4 := tmap reluQ x3
  some (permute_0312 (linApply4 m.fc2 x4))

/-- Modelled from the spec: the `Model` component (`model/models.py`,
`STGCNChebGraphConv` / `STGCNGraphConv`) is not under `src/`; per spec section
2 item 11 and section 4.10 it stacks `stblock_num` SpatioTemporalBlocks
followed by one OutputBlock and threads the input through them in order. -/
structure Model where
  st_blocks : List STConvBlock
  output : OutputBlock

/-- Modelled from the spec: the Model forward pass threads the input tensor
through each SpatioTemporalBlock in order and then through the OutputBlock
(spec section 4.10); any layer error aborts the pass. -/
def Model.forward (m : Model) (x : Tensor4) : Option Tensor4 :=
  (m.st_blocks.foldlM (fun t blk => STConvBlock.forward blk t) x).bind m.output.forward

/-- Modelled from the spec: model assembly for the channel configuration that
`main.py` `get_parameters` produces for `Ko > 0` — block channel specs
`[1]`, `stblock_num` copies of `[64, 16, 64]`, `[128, 128]`, `[1]` — with
each block's input channel count equal to the previous block's output
(spec section 3, `BlockChannelSpec`).  The OutputBlock's kernel is
`Ko = n_his - (Kt - 1) * 2 * stblock_num` (`main.py` line 95); its
construction-time trial forward can fail, failing model construction. -/
def mkModel (Kt Ks nv n_his stblock_num : ℕ) (act gct use_attn : String)
    (g : GSO) (bias : Bool) (ps : ℕ → STBlockParams) (op : OutParams)
    (σ τ : ℚ → ℚ) : Option Model :=
  let Ko := n_his - (Kt - 1) * 2 * stblock_num
  let blocks := (List.range stblock_num).map fun l =>
    mkSTConvBlock Kt Ks nv (if l = 0 then 1 else 64) 64 16 64 act gct g bias
      n_his l use_attn (ps l) σ τ
  let lbc_out := if stblock_num = 0 then 1 else 64
  (mkOutputBlock Ko lbc_out 128 128 1 nv act bias op σ τ).map fun ob =>
    ⟨blocks, ob⟩

/-- Refinement comparison for the attention fusion, following the spec's
words (section 4.7): "flatten `[channel, time]` into one feature axis per
vertex, treat vertex as the sequence axis" — position `n` along the sequence
axis holds exactly vertex `n`'s `[channel, time]` fiber. -/
def specFlattenPerVertex (x : Tensor4) : Tensor3 :=
  ⟨x.s0, x.s3, x.s1 * x.s2, fun b n f => x.data b (f / x.s2) (f % x.s2) n⟩

/-- Refinement comparison, following the spec's words (section 4.7):
"reshape back to tensor4D `[batch, channel, time, vertex]`" — the inverse of
per-vertex flattening, with the given channel and time extents. -/
def specUnflattenPerVertex (y : Tensor3) (c t : ℕ) : Tensor4 :=
  ⟨y.s0, c, t, y.s1, fun b ch tt v => y.data b v (ch * t + tt)⟩

/-- Refinement comparison: the attention-fusion branch as the spec's section
4.7 words describe it — per-vertex flattening in, single-head self-attention
with query = key = value and no masking, the learned projection, and a
per-vertex unflattening back to `[batch, channel, time, vertex]` with the
time axis dropped by 2. -/
def specAttnFusion (A : MultiHeadSelfAttention) (F : Linear)
    (tmp1 graph1 x2 : Tensor4) : Tensor4 :=
  let tmp2 := padTimeBoth 1 1 x2
  let concat := cat3Chan tmp1 graph1 tmp2
  let flat := specFlattenPerVertex concat
  let attn_out := (A.forward flat none none).1
  let attn_out2 := linApply3 F attn_out
  specUnflattenPerVertex attn_out2 (F.out_features / (concat.s2 - 2)) (concat.s2 - 2)

/-- Refinement comparison: `STConvBlock.forward` with the fusion branch
replaced by the spec-worded `specAttnFusion`; identical everywhere else. -/
def specSTConvBlockForward (m : STConvBlock) (x : Tensor4) : Option Tensor4 :=
  (m.tmp_conv1.forward x).bind fun tmp1 =>
  (m.graph_conv.forward tmp1).bind fun g1 =>
  let graph1 := tmap reluQ g1
  (m.tmp_conv2.forward graph1).bind fun x2 =>
  (if m.use_attn = "STAGCN" then
     match m.attn, m.fcn with
     | some A, some F => some (specAttnFusion A F tmp1 graph1 x2)
     | _, _ => none
   else some x2).bind fun xo =>
  some (applyData m.dropout (permute_0312 (m.tc2_ln.forward (permute_0231 xo))))

/-! Concrete parameter values used for evaluated instances. -/

/-- All-zero vector. -/
def zq1 : ℕ → ℚ := fun _ => 0

/-- All-zero matrix. -/
def zq2 : ℕ → ℕ → ℚ := fun _ _ => 0

/-- All-zero order-3 array. -/
def zq3 : ℕ → ℕ → ℕ → ℚ := fun _ _ _ => 0

/-- All-zero order-4 array. -/
def zq4 : ℕ → ℕ → ℕ → ℕ → ℚ := fun _ _ _ _ => 0

/-- Identity data map (a layer norm or dropout collaborator acting as the
identity, as dropout does in inference mode). -/
def idD : (ℕ → ℕ → ℕ → ℕ → ℚ) → (ℕ → ℕ → ℕ → ℕ → ℚ) := fun d => d

/-- The 1x1 all-zero graph operator. -/
def gsoZero1 : GSO := ⟨1, fun _ _ => 0⟩

/-- The 2x2 all-zero graph operator. -/
def gsoZero2 : GSO := ⟨2, fun _ _ => 0⟩

/-- The 1x1 all-one graph operator. -/
def gsoOne1 : GSO := ⟨1, fun _ _ => 1⟩

/-- An attention collaborator returning its query unchanged. -/
def attnFst : Tensor3 → Tensor3 → Tensor3 → Option Tensor3 → Option Tensor3 →
    Tensor3 × Tensor3 :=
  fun q _ _ _ _ => (q, q)

/-- An attention collaborator whose output at every position equals feature 1
of the query at that position. -/
def attnFeat1 : Tensor3 → Tensor3 → Tensor3 → Option Tensor3 → Option Tensor3 →
    Tensor3 × Tensor3 :=
  fun q _ _ _ _ => (⟨q.s0, q.s1, q.s2, fun a n _ => q.data a n 1⟩, q)

/-- A `[1, 1, 1, 1]` all-one tensor. -/
def t1111one : Tensor4 := ⟨1, 1, 1, 1, fun _ _ _ _ => 1⟩

/-- A `[1, 1, 2, 1]` all-zero tensor. -/
def t1121zero : Tensor4 := ⟨1, 1, 2, 1, fun _ _ _ _ => 0⟩

/-- All-zero block parameters with identity collaborators. -/
def zeroBP : STBlockParams :=
  { t1aW := zq2, t1aB := zq1, t1cW := zq4, t1cB := zq1,
    gaW := zq2, gaB := zq1, chW := zq3, gW := zq2, gB := zq1,
    t2aW := zq2, t2aB := zq1, t2cW := zq4, t2cB := zq1,
    attnF := attnFst, fcnW := zq2, fcnB := zq1, lnFn := idD, dropFn := idD }

/-- All-zero output-block parameters with identity collaborators. -/
def zeroOP : OutParams :=
  { taW := zq2, taB := zq1, tcW := zq4, tcB := zq1,
    fc1W := zq2, fc1B := zq1, fc2W := zq2, fc2B := zq1,
    lnFn := idD, dropFn := idD }

/-- Block parameters for the evaluated STAGCN block: all-one first temporal
kernel, the feature-1-reading attention collaborator and an `fcn` whose rows
sum the 0-th input feature. -/
def c4P : STBlockParams :=
  { t1aW := zq2, t1aB := zq1, t1cW := fun _ _ _ _ => 1, t1cB := zq1,
    gaW := zq2, gaB := zq1, chW := zq3, gW := zq2, gB := zq1,
    t2aW := zq2, t2aB := zq1, t2cW := zq4, t2cB := zq1,
    attnF := attnFeat1, fcnW := fun _ f => if f = 0 then 1 else 0, fcnB := zq1,
    lnFn := idD, dropFn := idD }

/-- A concrete STAGCN block: `Kt = 3`, channels `[142, 1, 1]` (so the
concatenated channel count is `144`), `n_his = 5`, `l = 0`, two vertices. -/
def c4Block : STConvBlock :=
  mkSTConvBlock 3 1 2 1 142 1 1 "relu" "cheb_graph_conv" gsoZero2 false 5 0
    "STAGCN" c4P (fun q => q) (fun q => q)

/-- A `[1, 1, 5, 2]` input with data `(t + 1) * (v + 1)`. -/
def c4X : Tensor4 := ⟨1, 1, 5, 2, fun _ _ t v => ((t : ℚ) + 1) * ((v : ℚ) + 1)⟩

/-- A concrete `GraphConvLayer` in the setting of the residual/zero-pad
claim: Chebyshev type, `Ks = 2`, all-zero 1x1 operator, all-one Chebyshev
weights, zero bias present. -/
def c6Layer : GraphConvLayer :=
  mkGraphConvLayer "cheb_graph_conv" 1 1 2 gsoZero1 true zq2 zq1
    (fun _ _ _ => 1) zq2 zq1

/-- A `TemporalConvLayer` constructed with the unsupported activation name
`"swish"`. -/
def c9T : TemporalConvLayer :=
  mkTemporalConvLayer 2 1 1 1 "swish" zq2 zq1 zq4 zq1 (fun q => q) (fun q => q)

/-- A `GraphConvLayer` constructed with the unknown type name `"foo"`. -/
def c9G : GraphConvLayer :=
  mkGraphConvLayer "foo" 1 1 1 gsoZero1 false zq2 zq1 zq3 zq2 zq1

/-- A concrete model configuration: `Kt = 2`, `Ks = 1`, one vertex, history
4, one block, plain (non-attention) variant; `Ko = 2`. -/
def c1Model : Option Model :=
  mkModel 2 1 1 4 1 "relu" "cheb_graph_conv" "STGCN" gsoZero1 false
    (fun _ => zeroBP) zeroOP (fun q => q) (fun q => q)

/-- The `[1, 1, 4, 1]` all-zero model input. -/
def c1X : Tensor4 := ⟨1, 1, 4, 1, fun _ _ _ _ => 0⟩

/-- A concrete `ChebGraphConv` with `Ks = 3` and all-one weights over the
all-one 1x1 operator. -/
def c2M : ChebGraphConv := ⟨1, 1, 3, gsoOne1, some zq1, fun _ _ _ => 1⟩

/-- A concrete GLU temporal layer. -/
def c3T : TemporalConvLayer :=
  mkTemporalConvLayer 2 1 1 1 "glu" zq2 zq1 zq4 zq1 (fun q => q) (fun q => q)

/-- A channel-growing `Align` (1 to 2 channels). -/
def c5A : Align := ⟨1, 2, zq2, zq1⟩

/-- A concrete unpadded causal convolution, kernel `(2, 1)`. -/
def c7Conv : CausalConv2d := ⟨1, 1, 2, 1, 1, 1, false, zq4, zq1⟩

/-- A concrete padded causal convolution, kernel `(2, 1)`. -/
def c7ConvPad : CausalConv2d := ⟨1, 1, 2, 1, 1, 1, true, zq4, zq1⟩

/-- A `Ks = 1` Chebyshev convolution over the zero operator. -/
def c8M1 : ChebGraphConv := ⟨1, 1, 1, gsoZero1, none, fun _ _ _ => 1⟩

/-- The same `Ks = 1` Chebyshev convolution over the all-one operator. -/
def c8M2 : ChebGraphConv := ⟨1, 1, 1, gsoOne1, none, fun _ _ _ => 1⟩

/-- Fallback tensor for reading a known-successful optional result. -/
def t4default : Tensor4 := ⟨0, 0, 0, 0, zq4⟩

/-- First temporal-gate output of the evaluated STAGCN block. -/
def c4Tmp1 : Tensor4 := (c4Block.tmp_conv1.forward c4X).getD t4default

/-- Post-ReLU graph-conv output of the evaluated STAGCN block. -/
def c4Graph1 : Tensor4 := tmap reluQ ((c4Block.graph_conv.forward c4Tmp1).getD t4default)

/-- Second temporal-gate output of the evaluated STAGCN block. -/
def c4X2 : Tensor4 := (c4Block.tmp_conv2.forward c4Graph1).getD t4default

/-- The channel-axis concatenation entering the fusion. -/
def c4Concat : Tensor4 := cat3Chan c4Tmp1 c4Graph1 (padTimeBoth 1 1 c4X2)

/-- The code's row-major `reshape(batch, num_nodes, channels*embed_dim)`. -/
def c4Resh : Tensor3 :=
  reshape43 c4Concat c4Concat.s0 c4Concat.s3 (c4Concat.s1 * c4Concat.s2)

/-- The spec-worded per-vertex flattening of the same concatenation. -/
def c4Flat : Tensor3 := specFlattenPerVertex c4Concat

/-- The `fcn` linear head of the evaluated STAGCN block. -/
def c4Fcn : Linear :=
  ⟨144 * (5 - 2 * (0 + 1)), 64 * (5 - 2 * (0 + 1) - 2),
   fun _ f => if f = 0 then 1 else 0, some zq1⟩

/-! Helper lemmas shared by several claims. -/

/-- `Align.forward` succeeds on a channel-matching input and produces
`c_out` channels with the other axes unchanged. -/
theorem align_forward_shape (m : Align) (x : Tensor4) (h : x.s1 = m.c_in) :
    ∃ a, m.forward x = some a ∧ a.s0 = x.s0 ∧ a.s1 = m.c_out ∧ a.s2 = x.s2 ∧ a.s3 = x.s3 := by
  unfold Align.forward
  rcases Nat.lt_trichotomy m.c_out m.c_in with hlt | heq | hgt
  · rw [if_pos hlt, if_pos h]
    exact ⟨_, rfl, rfl, rfl, rfl, rfl⟩
  · rw [if_neg (by omega), if_neg (by omega)]
    exact ⟨x, rfl, rfl, by omega, rfl, rfl⟩
  · rw [if_neg (by omega), if_pos hgt]
    exact ⟨_, rfl, rfl, by simp; omega, rfl, rfl⟩

/-- `ChebGraphConv.forward` at `Ks = 1`: the contraction collapses to the
order-0 term, which never touches the operator. -/
theorem cheb_forward_K1 (m : ChebGraphConv) (x : Tensor4) (hm : m.Ks = 1) :
    m.forward x = some (addBiasLast m.bias
      ⟨(permute_0231 x).s0, (permute_0231 x).s1, (permute_0231 x).s2, m.c_out,
       fun b t h j => ∑ i ∈ Finset.range m.c_in,
         (permute_0231 x).data b t h i * m.weight 0 i j⟩) := by
  unfold ChebGraphConv.forward
  rw [if_neg (by omega)]
  congr 2
  rw [Tensor4.mk.injEq]
  refine ⟨rfl, rfl, rfl, rfl, ?_⟩
  funext b t h j
  rw [hm, Finset.sum_range_one]
  rfl

/-- An unpadded `CausalConv2d` on a shape-compatible input is the plain
convolution of the raw input. -/
theorem causal_unpadded_forward (m : CausalConv2d) (x : Tensor4)
    (hp : m.enable_padding = false) (hc : x.s1 = m.in_channels)
    (ht : (m.kT - 1) * m.dT + 1 ≤ x.s2) (hv : (m.kV - 1) * m.dV + 1 ≤ x.s3) :
    m.forward x = some (conv2dCore m x) := by
  unfold CausalConv2d.forward
  rw [hp]
  simp only [Bool.false_eq_true, if_false]
  rw [if_pos ⟨hc, ht, hv⟩]

/-- On a shape-compatible input, `TemporalConvLayer.forward` is the gating
applied to the aligned input and the unpadded convolution output. -/
theorem tconv_forward_gate (Kt cin cout nv : ℕ) (act : String)
    (aW : ℕ → ℕ → ℚ) (aB : ℕ → ℚ) (cW : ℕ → ℕ → ℕ → ℕ → ℚ) (cB : ℕ → ℚ)
    (σ τ : ℚ → ℚ) (x : Tensor4) (h1 : x.s1 = cin) (h2 : Kt - 1 + 1 ≤ x.s2)
    (h3 : 1 ≤ x.s3) :
    ∃ a, (Align.mk cin cout aW aB).forward x = some a ∧ a.s0 = x.s0 ∧
      a.s1 = cout ∧ a.s2 = x.s2 ∧ a.s3 = x.s3 ∧
      (mkTemporalConvLayer Kt cin cout nv act aW aB cW cB σ τ).forward x =
        (mkTemporalConvLayer Kt cin cout nv act aW aB cW cB σ τ).gate a
          (conv2dCore (mkTemporalConvLayer Kt cin cout nv act aW aB cW cB σ τ).causal_conv x) := by
  obtain ⟨a, ha, ha0, ha1, ha2, ha3⟩ := align_forward_shape ⟨cin, cout, aW, aB⟩ x h1
  refine ⟨a, ha, ha0, ha1, ha2, ha3, ?_⟩
  unfold TemporalConvLayer.forward
  rw [show (mkTemporalConvLayer Kt cin cout nv act aW aB cW cB σ τ).align
      = Align.mk cin cout aW aB from rfl, ha,
    causal_unpadded_forward _ x rfl
      (by simp only [mkTemporalConvLayer]; exact h1)
      (by simp only [mkTemporalConvLayer]; omega)
      (by simp only [mkTemporalConvLayer]; omega)]
  rfl

/-! Claim theorems. -/

/-- Claim C5: `Align.forward` is the identity when `c_in = c_out`; appends
exactly-zero channels (originals unchanged) when `c_in < c_out`; and is a
learned per-position 1x1 projection to `c_out` channels when `c_in > c_out`;
in every case the non-channel dimensions are unchanged. -/
theorem align_forward_cases (m : Align) (x : Tensor4) :
    (m.c_in = m.c_out → m.forward x = some x) ∧
    (m.c_in < m.c_out → x.s1 = m.c_in →
      ∃ y, m.forward x = some y ∧ y.s0 = x.s0 ∧ y.s1 = m.c_out ∧ y.s2 = x.s2 ∧ y.s3 = x.s3 ∧
        (∀ b c t v, c < m.c_in → y.data b c t v = x.data b c t v) ∧
        (∀ b c t v, m.c_in ≤ c → y.data b c t v = 0)) ∧
    (m.c_out < m.c_in → x.s1 = m.c_in →
      ∃ y, m.forward x = some y ∧ y.s0 = x.s0 ∧ y.s1 = m.c_out ∧ y.s2 = x.s2 ∧ y.s3 = x.s3 ∧
        ∀ b c t v, y.data b c t v =
          m.bias c + ∑ i ∈ Finset.range m.c_in, m.weight c i * x.data b i t v) := by
  refine ⟨?_, ?_, ?_⟩
  · intro h
    unfold Align.forward
    rw [if_neg (by omega), if_neg (by omega)]
  · intro h hx
    unfold Align.forward
    rw [if_neg (by omega), if_pos h]
    refine ⟨_, rfl, rfl, by simp; omega, rfl, rfl, ?_, ?_⟩
    · intro b c t v hc
      simp only
      rw [if_pos (by omega)]
    · intro b c t v hc
      simp only
      rw [if_neg (by omega)]
  · intro h hx
    unfold Align.forward
    rw [if_pos h, if_pos hx]
    exact ⟨_, rfl, rfl, rfl, rfl, rfl, fun b c t v => rfl⟩

/-- Witness for C5 at a concrete channel-growing instance. -/
theorem align_forward_cases_witness :
    ∃ y, c5A.forward t1111one = some y ∧ y.s1 = 2 ∧
      y.data 0 0 0 0 = t1111one.data 0 0 0 0 ∧ y.data 0 1 0 0 = 0 := by
  obtain ⟨y, hy, _, h1, _, _, hdata, hzero⟩ :=
    (align_forward_cases c5A t1111one).2.1 (by decide) (by decide)
  exact ⟨y, hy, h1, hdata 0 0 0 0 (by decide), hzero 0 1 0 0 (by decide)⟩

/-- Claim C7: unpadded `CausalConv2d` (at the dilation-1 default) shrinks the
time axis to exactly `input_time - (Kt - 1)` and applies no padding (the
output reads the raw input); padded `CausalConv2d` left-pads by
`(Kt-1)*dilation` so the output time length equals the input's, and each
output step depends only on input times `≤` its own. -/
theorem causalConv2d_modes (m : CausalConv2d) (x : Tensor4)
    (hch : x.s1 = m.in_channels) :
    (m.enable_padding = false → m.dT = 1 → 1 ≤ m.kT → m.kT ≤ x.s2 →
      (m.kV - 1) * m.dV + 1 ≤ x.s3 →
      ∃ y, m.forward x = some y ∧ y.s0 = x.s0 ∧ y.s1 = m.out_channels ∧
        y.s2 = x.s2 - (m.kT - 1) ∧
        ∀ b c t v, y.data b c t v = m.bias c +
          ∑ ci ∈ Finset.range m.in_channels, ∑ i ∈ Finset.range m.kT,
            ∑ j ∈ Finset.range m.kV,
              m.weight c ci i j * x.data b ci (t + i) (v + j * m.dV)) ∧
    (m.enable_padding = true → 1 ≤ x.s2 → 1 ≤ x.s3 →
      (∃ y, m.forward x = some y ∧ y.s0 = x.s0 ∧ y.s1 = m.out_channels ∧
        y.s2 = x.s2 ∧ y.s3 = x.s3) ∧
      ∀ (t : ℕ) (x2 : Tensor4), x2.s1 = x.s1 → x2.s2 = x.s2 → x2.s3 = x.s3 →
        (∀ b c t2 v, t2 ≤ t → x2.data b c t2 v = x.data b c t2 v) →
        ∀ y y2, m.forward x = some y → m.forward x2 = some y2 →
        ∀ b c v, y.data b c t v = y2.data b c t v) := by
  constructor
  · intro hp hd hk1 hk2 hv
    unfold CausalConv2d.forward
    rw [hp]
    simp only [Bool.false_eq_true, if_false]
    rw [if_pos ⟨hch, by rw [hd]; omega, hv⟩]
    refine ⟨_, rfl, rfl, rfl, by simp [conv2dCore, hd], ?_⟩
    intro b c t v
    simp [conv2dCore, hd]
  · intro hp h2 h3
    have hcond : ∀ z : Tensor4, z.s1 = x.s1 → z.s2 = x.s2 → z.s3 = x.s3 →
        m.forward z = some (conv2dCore m
          (padLeft2 ((m.kT - 1) * m.dT) ((m.kV - 1) * m.dV) z)) := by
      intro z e1 e2 e3
      unfold CausalConv2d.forward
      rw [hp]
      simp only [if_true]
      rw [if_pos ⟨by omega, by simp [padLeft2]; omega, by simp [padLeft2]; omega⟩]
    constructor
    · rw [hcond x rfl rfl rfl]
      refine ⟨_, rfl, rfl, rfl, ?_, ?_⟩ <;> simp [conv2dCore, padLeft2]
    · intro t x2 e1 e2 e3 hagree y y2 hy hy2 b c v
      rw [hcond x rfl rfl rfl] at hy
      rw [hcond x2 e1 e2 e3] at hy2
      obtain rfl : y = _ := Option.some.inj hy.symm
      obtain rfl : y2 = _ := Option.some.inj hy2.symm
      simp only [conv2dCore]
      congr 1
      apply Finset.sum_congr rfl
      intro ci _
      apply Finset.sum_congr rfl
      intro i hi
      apply Finset.sum_congr rfl
      intro j hj
      congr 1
      simp only [padLeft2]
      have hmul : i * m.dT ≤ (m.kT - 1) * m.dT :=
        Nat.mul_le_mul (by have := Finset.mem_range.mp hi; omega) (le_refl m.dT)
      split_ifs with hcnd
      · exact (hagree b ci _ _ (by omega)).symm
      · rfl

/-- Witness for C7: both modes at a concrete kernel-(2,1) convolution. -/
theorem causalConv2d_modes_witness :
    (∃ y, c7Conv.forward t1121zero = some y ∧ y.s2 = 2 - (2 - 1)) ∧
    (∃ y, c7ConvPad.forward t1121zero = some y ∧ y.s2 = 2) := by
  constructor
  · obtain ⟨y, hy, _, _, h2, _⟩ :=
      (causalConv2d_modes c7Conv t1121zero rfl).1 rfl rfl (by decide) (by decide) (by decide)
    exact ⟨y, hy, h2⟩
  · obtain ⟨⟨y, hy, _, _, h2, _⟩, _⟩ :=
      (causalConv2d_modes c7ConvPad t1121zero rfl).2 rfl (by decide) (by decide)
    exact ⟨y, hy, h2⟩

/-- Claim C8: with `Ks = 1` the Chebyshev graph convolution is a per-vertex
linear map that is independent of the graph operator: two modules equal in
everything but `gso` agree on every input, and the output is the order-0
contraction only. -/
theorem chebGraphConv_K1_operator_independent (m1 m2 : ChebGraphConv)
    (h1 : m1.Ks = 1) (h2 : m2.Ks = 1) (hci : m1.c_in = m2.c_in)
    (hco : m1.c_out = m2.c_out) (hw : m1.weight = m2.weight)
    (hb : m1.bias = m2.bias) (x : Tensor4) :
    m1.forward x = m2.forward x ∧
    ∀ y, m1.forward x = some y → ∀ b t h j,
      y.data b t h j = (∑ i ∈ Finset.range m1.c_in,
        (permute_0231 x).data b t h i * m1.weight 0 i j) + biasVal m1.bias j := by
  constructor
  · rw [cheb_forward_K1 m1 x h1, cheb_forward_K1 m2 x h2, hci, hco, hw, hb]
  · intro y hy b t h j
    rw [cheb_forward_K1 m1 x h1] at hy
    obtain rfl : y = _ := Option.some.inj hy.symm
    cases hbb : m1.bias with
    | some f => simp [addBiasLast, biasVal, hbb]
    | none => simp [addBiasLast, biasVal, hbb]

/-- Witness for C8: the zero and all-one 1x1 operators give identical
outputs at `Ks = 1`. -/
theorem chebGraphConv_K1_operator_independent_witness :
    c8M1.forward t1111one = c8M2.forward t1111one :=
  (chebGraphConv_K1_operator_independent c8M1 c8M2 rfl rfl rfl rfl rfl rfl t1111one).1

/-- Claim C2: `ChebGraphConv.forward` computes the Chebyshev basis with
`T0(x) = x`, `T1(x) = L·x` (operator contraction over the vertex axis) and
`Tk(x) = 2·L·T(k-1)(x) - T(k-2)(x)` for `k ≥ 2`, then contracts the stacked
basis jointly over the order and input-channel axes with the `[K, c_in,
c_out]` weight and adds the bias when present. -/
theorem chebGraphConv_forward_recurrence (m : ChebGraphConv) (x : Tensor4)
    (hK : 1 ≤ m.Ks) :
    (chebT m.gso (permute_0231 x) 0 = permute_0231 x) ∧
    (∀ b t h j, (chebT m.gso (permute_0231 x) 1).data b t h j =
      ∑ i ∈ Finset.range m.gso.n, m.gso.entry h i * (permute_0231 x).data b t i j) ∧
    (∀ k, 2 ≤ k → ∀ b t h j, (chebT m.gso (permute_0231 x) k).data b t h j =
      2 * (∑ i ∈ Finset.range m.gso.n,
            m.gso.entry h i * (chebT m.gso (permute_0231 x) (k - 1)).data b t i j)
        - (chebT m.gso (permute_0231 x) (k - 2)).data b t h j) ∧
    (∃ y, m.forward x = some y ∧
      ∀ b t h j, y.data b t h j =
        (∑ kk ∈ Finset.range m.Ks, ∑ i ∈ Finset.range m.c_in,
          (chebT m.gso (permute_0231 x) kk).data b t h i * m.weight kk i j)
          + biasVal m.bias j) := by
  refine ⟨rfl, fun b t h j => rfl, ?_, ?_⟩
  · intro k hk b t h j
    obtain ⟨k2, rfl⟩ : ∃ k2, k = k2 + 2 := ⟨k - 2, by omega⟩
    show (tsub _ _).data b t h j = _
    simp only [tsub, gsoApply, chebT,
      show k2 + 2 - 1 = k2 + 1 from rfl, show k2 + 2 - 2 = k2 from rfl]
    rw [Finset.mul_sum]
    congr 1
    apply Finset.sum_congr rfl
    intro i _
    ring
  · unfold ChebGraphConv.forward
    rw [if_neg (by omega)]
    refine ⟨_, rfl, ?_⟩
    intro b t h j
    cases hbb : m.bias with
    | some f => simp [addBiasLast, biasVal, hbb]
    | none => simp [addBiasLast, biasVal, hbb]

/-- Witness for C2 at a concrete `Ks = 3` module. -/
theorem chebGraphConv_forward_recurrence_witness :
    (1 ≤ c2M.Ks) ∧ ∃ y, c2M.forward t1111one = some y := by
  refine ⟨by decide, ?_⟩
  obtain ⟨y, hy, _⟩ := (chebGraphConv_forward_recurrence c2M t1111one (by decide)).2.2.2
  exact ⟨y, hy⟩

/-- Claim C3: `TemporalConvLayer.forward` time-trims the aligned input by
`Kt - 1`; for GLU the convolution has `2*c_out` channels whose halves `p`
(first `c_out`) and `q` (last `c_out`) give `(p + x_in) * sigmoid q`; for GTU
it gives `tanh (p + x_in) * sigmoid q`; for the plain activations the
convolution has `c_out` channels and the output is
`activation (x_conv + x_in)`. -/
theorem temporalConvLayer_forward_gating (Kt cin cout nv : ℕ) (act : String)
    (aW : ℕ → ℕ → ℚ) (aB : ℕ → ℚ) (cW : ℕ → ℕ → ℕ → ℕ → ℚ) (cB : ℕ → ℚ)
    (σ τ : ℚ → ℚ) (x a : Tensor4) (h1 : x.s1 = cin) (h2 : Kt - 1 + 1 ≤ x.s2)
    (h3 : 1 ≤ x.s3)
    (ha : (Align.mk cin cout aW aB).forward x = some a) :
    ((mkTemporalConvLayer Kt cin cout nv act aW aB cW cB σ τ).causal_conv.out_channels
        = if act = "glu" ∨ act = "gtu" then 2 * cout else cout) ∧
    (act = "glu" → ∃ y,
      (mkTemporalConvLayer Kt cin cout nv act aW aB cW cB σ τ).forward x = some y ∧
      y.s0 = x.s0 ∧ y.s1 = cout ∧ y.s2 = x.s2 - (Kt - 1) ∧ y.s3 = x.s3 ∧
      ∀ b c t v, y.data b c t v =
        ((conv2dCore (mkTemporalConvLayer Kt cin cout nv act aW aB cW cB σ τ).causal_conv
            x).data b c t v + a.data b c (t + (Kt - 1)) v)
          * σ ((conv2dCore (mkTemporalConvLayer Kt cin cout nv act aW aB cW cB σ τ).causal_conv
            x).data b (c + cout) t v)) ∧
    (act = "gtu" → ∃ y,
      (mkTemporalConvLayer Kt cin cout nv act aW aB cW cB σ τ).forward x = some y ∧
      y.s0 = x.s0 ∧ y.s1 = cout ∧ y.s2 = x.s2 - (Kt - 1) ∧ y.s3 = x.s3 ∧
      ∀ b c t v, y.data b c t v =
        τ ((conv2dCore (mkTemporalConvLayer Kt cin cout nv act aW aB cW cB σ τ).causal_conv
            x).data b c t v + a.data b c (t + (Kt - 1)) v)
          * σ ((conv2dCore (mkTemporalConvLayer Kt cin cout nv act aW aB cW cB σ τ).causal_conv
            x).data b (c + cout) t v)) ∧
    (act = "relu" → ∃ y,
      (mkTemporalConvLayer Kt cin cout nv act aW aB cW cB σ τ).forward x = some y ∧
      y.s0 = x.s0 ∧ y.s1 = cout ∧ y.s2 = x.s2 - (Kt - 1) ∧ y.s3 = x.s3 ∧
      ∀ b c t v, y.data b c t v =
        reluQ ((conv2dCore (mkTemporalConvLayer Kt cin cout nv act aW aB cW cB σ τ).causal_conv
            x).data b c t v + a.data b c (t + (Kt - 1)) v)) ∧
    (act = "leaky_relu" → ∃ y,
      (mkTemporalConvLayer Kt cin cout nv act aW aB cW cB σ τ).forward x = some y ∧
      y.s0 = x.s0 ∧ y.s1 = cout ∧ y.s2 = x.s2 - (Kt - 1) ∧ y.s3 = x.s3 ∧
      ∀ b c t v, y.data b c t v =
        leakyReluQ ((conv2dCore
            (mkTemporalConvLayer Kt cin cout nv act aW aB cW cB σ τ).causal_conv
            x).data b c t v + a.data b c (t + (Kt - 1)) v)) ∧
    (act = "silu" → ∃ y,
      (mkTemporalConvLayer Kt cin cout nv act aW aB cW cB σ τ).forward x = some y ∧
      y.s0 = x.s0 ∧ y.s1 = cout ∧ y.s2 = x.s2 - (Kt - 1) ∧ y.s3 = x.s3 ∧
      ∀ b c t v, y.data b c t v =
        ((conv2dCore (mkTemporalConvLayer Kt cin cout nv act aW aB cW cB σ τ).causal_conv
            x).data b c t v + a.data b c (t + (Kt - 1)) v)
          * σ ((conv2dCore (mkTemporalConvLayer Kt cin cout nv act aW aB cW cB σ τ).causal_conv
            x).data b c t v + a.data b c (t + (Kt - 1)) v)) := by
  obtain ⟨a2, ha2, _, _, _, _, hfwd⟩ :=
    tconv_forward_gate Kt cin cout nv act aW aB cW cB σ τ x h1 h2 h3
  rw [ha] at ha2
  obtain rfl : a = a2 := Option.some.inj ha2
  refine ⟨rfl, ?_, ?_, ?_, ?_, ?_⟩
  · intro hact
    subst hact
    have hg : ∀ cc : Tensor4,
        (mkTemporalConvLayer Kt cin cout nv "glu" aW aB cW cB σ τ).gate a cc
          = some (tmul (tadd (sliceChanFirst cout cc) (sliceTimeFrom (Kt - 1) a))
              (tmap σ (sliceChanLast cout cc))) := fun cc => rfl
    rw [hfwd, hg]
    refine ⟨_, rfl, rfl, ?_, ?_, ?_, ?_⟩
    · show min cout (2 * cout) = cout
      omega
    · show x.s2 - (Kt - 1) * 1 = x.s2 - (Kt - 1)
      omega
    · show x.s3 - (1 - 1) * 1 = x.s3
      omega
    · intro b c t v
      by_cases h0 : cout = 0
      · subst h0
        simp only [tmul, tadd, tmap, sliceChanFirst, sliceTimeFrom, sliceChanLast, if_pos rfl]
        rfl
      · simp only [tmul, tadd, tmap, sliceChanFirst, sliceTimeFrom, sliceChanLast, if_neg h0]
        rw [show (conv2dCore (mkTemporalConvLayer Kt cin cout nv "glu" aW aB cW cB
            σ τ).causal_conv x).s1 - cout = cout from by
          show 2 * cout - cout = cout; omega]
  · intro hact
    subst hact
    have hg : ∀ cc : Tensor4,
        (mkTemporalConvLayer Kt cin cout nv "gtu" aW aB cW cB σ τ).gate a cc
          = some (tmul (tmap τ (tadd (sliceChanFirst cout cc) (sliceTimeFrom (Kt - 1) a)))
              (tmap σ (sliceChanLast cout cc))) := fun cc => rfl
    rw [hfwd, hg]
    refine ⟨_, rfl, rfl, ?_, ?_, ?_, ?_⟩
    · show min cout (2 * cout) = cout
      omega
    · show x.s2 - (Kt - 1) * 1 = x.s2 - (Kt - 1)
      omega
    · show x.s3 - (1 - 1) * 1 = x.s3
      omega
    · intro b c t v
      by_cases h0 : cout = 0
      · subst h0
        simp only [tmul, tadd, tmap, sliceChanFirst, sliceTimeFrom, sliceChanLast, if_pos rfl]
        rfl
      · simp only [tmul, tadd, tmap, sliceChanFirst, sliceTimeFrom, sliceChanLast, if_neg h0]
        rw [show (conv2dCore (mkTemporalConvLayer Kt cin cout nv "gtu" aW aB cW cB
            σ τ).causal_conv x).s1 - cout = cout from by
          show 2 * cout - cout = cout; omega]
  · intro hact
    subst hact
    have hg : ∀ cc : Tensor4,
        (mkTemporalConvLayer Kt cin cout nv "relu" aW aB cW cB σ τ).gate a cc
          = some (tmap reluQ (tadd cc (sliceTimeFrom (Kt - 1) a))) := fun cc => rfl
    rw [hfwd, hg]
    refine ⟨_, rfl, rfl, rfl, ?_, ?_, fun b c t v => rfl⟩
    · show x.s2 - (Kt - 1) * 1 = x.s2 - (Kt - 1)
      omega
    · show x.s3 - (1 - 1) * 1 = x.s3
      omega
  · intro hact
    subst hact
    have hg : ∀ cc : Tensor4,
        (mkTemporalConvLayer Kt cin cout nv "leaky_relu" aW aB cW cB σ τ).gate a cc
          = some (tmap leakyReluQ (tadd cc (sliceTimeFrom (Kt - 1) a))) := fun cc => rfl
    rw [hfwd, hg]
    refine ⟨_, rfl, rfl, rfl, ?_, ?_, fun b c t v => rfl⟩
    · show x.s2 - (Kt - 1) * 1 = x.s2 - (Kt - 1)
      omega
    · show x.s3 - (1 - 1) * 1 = x.s3
      omega
  · intro hact
    subst hact
    have hg : ∀ cc : Tensor4,
        (mkTemporalConvLayer Kt cin cout nv "silu" aW aB cW cB σ τ).gate a cc
          = some (tmap (fun z => z * σ z) (tadd cc (sliceTimeFrom (Kt - 1) a))) :=
      fun cc => rfl
    rw [hfwd, hg]
    refine ⟨_, rfl, rfl, rfl, ?_, ?_, fun b c t v => rfl⟩
    · show x.s2 - (Kt - 1) * 1 = x.s2 - (Kt - 1)
      omega
    · show x.s3 - (1 - 1) * 1 = x.s3
      omega

/-- Witness for C3 at a concrete GLU layer. -/
theorem temporalConvLayer_forward_gating_witness :
    ∃ y, c3T.forward t1121zero = some y ∧ y.s2 = 2 - (2 - 1) := by
  obtain ⟨y, hy, _, _, hs2, _, _⟩ :=
    (temporalConvLayer_forward_gating 2 1 1 1 "glu" zq2 zq1 zq4 zq1
      (fun q => q) (fun q => q) t1121zero t1121zero rfl (by decide) (by decide) rfl).2.1 rfl
  exact ⟨y, hy, hs2⟩

/-- Counterexample to claim C9: a `TemporalConvLayer` built with the
unsupported activation name `"swish"` and a `GraphConvLayer` built with the
unknown type `"foo"` construct fine (the configuration is stored unchecked);
the error appears only when `forward` runs, even on a shape-valid input. -/
theorem unsupported_name_error_not_at_construction :
    c9T.act_func = "swish" ∧ c9G.graph_conv_type = "foo" ∧
    c9T.forward t1121zero = none ∧ c9G.forward t1121zero = none := by
  exact ⟨rfl, rfl, rfl, rfl⟩

/-- Claim C9 (amended): an unsupported activation-function name or an
unknown graph-convolution-type name causes a forward-time error, not a
construction-time one: `__init__` completes, and every forward pass of the
constructed layer raises, on every input whatsoever. -/
theorem unsupported_name_error_at_forward (act gct : String)
    (hact : act ∉ (["glu", "gtu", "relu", "leaky_relu", "silu"] : List String))
    (hgct : gct ∉ (["cheb_graph_conv", "graph_conv"] : List String)) :
    (∀ Kt cin cout nv aW aB cW cB (σ τ : ℚ → ℚ) (x : Tensor4),
      (mkTemporalConvLayer Kt cin cout nv act aW aB cW cB σ τ).forward x = none) ∧
    (∀ cin cout Ks g bias aW aB chW gW bW (x : Tensor4),
      (mkGraphConvLayer gct cin cout Ks g bias aW aB chW gW bW).forward x = none) := by
  simp only [List.mem_cons, List.not_mem_nil, or_false, not_or] at hact hgct
  obtain ⟨ha1, ha2, ha3, ha4, ha5⟩ := hact
  obtain ⟨hb1, hb2⟩ := hgct
  constructor
  · intro Kt cin cout nv aW aB cW cB σ τ x
    unfold TemporalConvLayer.forward
    cases halign : (mkTemporalConvLayer Kt cin cout nv act aW aB cW cB σ τ).align.forward x with
    | none => rfl
    | some a =>
      simp only [Option.some_bind]
      cases hconv : (mkTemporalConvLayer Kt cin cout nv act aW aB cW cB
          σ τ).causal_conv.forward x with
      | none => rfl
      | some cc =>
        simp only [Option.some_bind]
        unfold TemporalConvLayer.gate
        rw [if_neg (by simp only [mkTemporalConvLayer]; exact not_or.mpr ⟨ha1, ha2⟩),
          if_neg (by simp only [mkTemporalConvLayer]; exact ha3),
          if_neg (by simp only [mkTemporalConvLayer]; exact ha4),
          if_neg (by simp only [mkTemporalConvLayer]; exact ha5)]
  · intro cin cout Ks g bias aW aB chW gW bW x
    unfold GraphConvLayer.forward
    cases halign : (mkGraphConvLayer gct cin cout Ks g bias aW aB chW gW
        bW).align.forward x with
    | none => rfl
    | some a =>
      simp only [Option.some_bind]
      rw [if_neg (by simp only [mkGraphConvLayer]; exact hb1),
        if_neg (by simp only [mkGraphConvLayer]; exact hb2)]
      rfl

/-- Witness for the amended C9 at the names `"swish"` and `"foo"`. -/
theorem unsupported_name_error_at_forward_witness :
    ("swish" ∉ (["glu", "gtu", "relu", "leaky_relu", "silu"] : List String)) ∧
    ("foo" ∉ (["cheb_graph_conv", "graph_conv"] : List String)) ∧
    c9T.forward t1121zero = none ∧ c9G.forward t1121zero = none := by
  refine ⟨by decide, by decide, ?_, ?_⟩
  · exact (unsupported_name_error_at_forward "swish" "foo" (by decide) (by decide)).1
      2 1 1 1 zq2 zq1 zq4 zq1 (fun q => q) (fun q => q) t1121zero
  · exact (unsupported_name_error_at_forward "swish" "foo" (by decide) (by decide)).2
      1 1 1 gsoZero1 false zq2 zq1 zq3 zq2 zq1 t1121zero

/-- The `OutputBlock` constructor's trial forward on `torch.zeros(1, 64, 26,
4)` fails whenever the configured input channel count differs from 64 or
`Ko > 26`, so construction returns an error. -/
theorem mkOutputBlock_fails (Ko lbc c0 c1 endc nv : ℕ)
    (act : String) (bias : Bool) (p : OutParams) (σ τ : ℚ → ℚ)
    (h : lbc ≠ 64 ∨ 26 < Ko) :
    mkOutputBlock Ko lbc c0 c1 endc nv act bias p σ τ = none := by
  have hconv : (mkTemporalConvLayer Ko lbc c0 nv act p.taW p.taB p.tcW p.tcB
      σ τ).causal_conv.forward zTrial = none := by
    unfold CausalConv2d.forward
    simp only [mkTemporalConvLayer, zTrial, Bool.false_eq_true, if_false]
    rw [if_neg]
    rintro ⟨hc, ht, hv⟩
    rcases h with h | h
    · exact h hc.symm
    · omega
  have htrial : (mkTemporalConvLayer Ko lbc c0 nv act p.taW p.taB p.tcW p.tcB
      σ τ).forward zTrial = none := by
    unfold TemporalConvLayer.forward
    cases halign : (mkTemporalConvLayer Ko lbc c0 nv act p.taW p.taB p.tcW p.tcB
        σ τ).align.forward zTrial with
    | none => rfl
    | some a =>
      simp only [Option.some_bind]
      rw [hconv]
      rfl
  simp only [mkOutputBlock]
  rw [htrial]

/-- Claim C10: `OutputBlock.__init__` always trial-runs its temporal layer on
the fixed tensor `torch.zeros(1, 64, 26, 4)`, so construction fails whenever
the configured input channel count differs from 64 or `Ko > 26` — even for
configurations with `Ko ≥ 1`. -/
theorem outputBlock_trial_forward_constraint (Ko lbc c0 c1 endc nv : ℕ)
    (act : String) (bias : Bool) (p : OutParams) (σ τ : ℚ → ℚ)
    (h : lbc ≠ 64 ∨ 26 < Ko) :
    mkOutputBlock Ko lbc c0 c1 endc nv act bias p σ τ = none :=
  mkOutputBlock_fails Ko lbc c0 c1 endc nv act bias p σ τ h

/-- Witness for C10 at `Ko = 27` with matching channels. -/
theorem outputBlock_trial_forward_constraint_witness :
    ((64 : ℕ) ≠ 64 ∨ 26 < 27) ∧
    mkOutputBlock 27 64 128 128 1 1 "glu" true zeroOP (fun q => q) (fun q => q) = none :=
  ⟨Or.inr (by decide),
   outputBlock_trial_forward_constraint 27 64 128 128 1 1 "glu" true zeroOP
     (fun q => q) (fun q => q) (Or.inr (by decide))⟩

/-- Counterexample to claim C6: with the all-zero operator and `Ks = 2`, the
Chebyshev `GraphConvLayer` output is not `Align(x)` plus the bias: on the
all-one input its entry is 2 while `Align(x)` plus the (zero) bias gives 1 —
the order-0 Chebyshev term still contributes a linear image of the aligned
input. -/
theorem graphConvLayer_zero_gso_not_align_plus_bias :
    (c6Layer.forward t1111one).map (fun y => y.data 0 0 0 0)
      ≠ (c6Layer.align.forward t1111one).map (fun a => a.data 0 0 0 0 + zq1 0) := by
  have h1 : (c6Layer.forward t1111one).map (fun y => y.data 0 0 0 0)
      = some (((∑ k ∈ Finset.range 2, ∑ i ∈ Finset.range 1,
          (chebT gsoZero1 (permute_0231 t1111one) k).data 0 0 0 i * 1) + zq1 0)
          + t1111one.data 0 0 0 0) := rfl
  have h2 : (c6Layer.align.forward t1111one).map (fun a => a.data 0 0 0 0 + zq1 0)
      = some (t1111one.data 0 0 0 0 + zq1 0) := rfl
  rw [h1, h2]
  intro h
  have h3 := Option.some.inj h
  norm_num [chebT, gsoApply, permute_0231, t1111one, zq1, gsoZero1,
    Finset.sum_range_succ, Finset.sum_range_one] at h3

/-- Claim C6 (amended): with an all-zero graph operator, the `Ks = 2`
Chebyshev `GraphConvLayer` performs no neighbour mixing, but its output is
the aligned input plus the order-0 per-vertex linear term plus the bias
(not the aligned input plus the bias alone); for the first-order
`graph_conv` type the graph term degenerates to the bias and the output is
exactly `Align(x)` plus the bias. -/
theorem graphConvLayer_zero_gso_order_zero_term (cin cout Ks : ℕ) (g : GSO)
    (hg : ∀ h i, g.entry h i = (0 : ℚ)) (bias : Bool)
    (aW : ℕ → ℕ → ℚ) (aB : ℕ → ℚ) (chW : ℕ → ℕ → ℕ → ℚ) (gW : ℕ → ℕ → ℚ)
    (bW : ℕ → ℚ) (x a : Tensor4)
    (ha : (Align.mk cin cout aW aB).forward x = some a) :
    (∃ y, (mkGraphConvLayer "cheb_graph_conv" cin cout 2 g bias aW aB chW gW
        bW).forward x = some y ∧
      ∀ b c t v, y.data b c t v =
        ((∑ i ∈ Finset.range cout, a.data b i t v * chW 0 i c)
          + biasVal (if bias then some bW else none) c) + a.data b c t v) ∧
    (∃ y, (mkGraphConvLayer "graph_conv" cin cout Ks g bias aW aB chW gW
        bW).forward x = some y ∧
      ∀ b c t v, y.data b c t v =
        biasVal (if bias then some bW else none) c + a.data b c t v) := by
  constructor
  · have hsel : (mkGraphConvLayer "cheb_graph_conv" cin cout 2 g bias aW aB chW gW
        bW).forward x
        = ((Align.mk cin cout aW aB).forward x).bind fun x_gc_in =>
          ((ChebGraphConv.mk cout cout 2 g (if bias then some bW else none)
            chW).forward x_gc_in).bind fun x_gc =>
          some (tadd (permute_0312 x_gc) x_gc_in) := rfl
    rw [hsel, ha]
    simp only [Option.some_bind]
    have hcheb : (ChebGraphConv.mk cout cout 2 g (if bias then some bW else none)
        chW).forward a
        = some (addBiasLast (if bias then some bW else none)
          ⟨(permute_0231 a).s0, (permute_0231 a).s1, (permute_0231 a).s2, cout,
           fun b t h j => ∑ k ∈ Finset.range 2, ∑ i ∈ Finset.range cout,
             (chebT g (permute_0231 a) k).data b t h i * chW k i j⟩) := by
      unfold ChebGraphConv.forward
      rw [if_neg]
      exact Nat.succ_ne_zero 1
    rw [hcheb]
    simp only [Option.some_bind]
    refine ⟨_, rfl, ?_⟩
    intro b c t v
    have hz : ∀ i : ℕ, (chebT g (permute_0231 a) 1).data b t v i = 0 := fun i =>
      show (∑ i2 ∈ Finset.range g.n,
          g.entry v i2 * (permute_0231 a).data b t i2 i) = 0 from
        Finset.sum_eq_zero fun i2 _ => by rw [hg, zero_mul]
    have hcore : (∑ k ∈ Finset.range 2, ∑ i ∈ Finset.range cout,
        (chebT g (permute_0231 a) k).data b t v i * chW k i c)
        = ∑ i ∈ Finset.range cout, a.data b i t v * chW 0 i c := by
      rw [Finset.sum_range_succ, Finset.sum_range_one]
      have h1 : (∑ i ∈ Finset.range cout,
          (chebT g (permute_0231 a) 1).data b t v i * chW 1 i c) = 0 :=
        Finset.sum_eq_zero fun i _ => by rw [hz, zero_mul]
      rw [h1, add_zero]
      rfl
    cases bias with
    | true =>
        show (∑ k ∈ Finset.range 2, ∑ i ∈ Finset.range cout,
            (chebT g (permute_0231 a) k).data b t v i * chW k i c) + bW c
            + a.data b c t v
          = (∑ i ∈ Finset.range cout, a.data b i t v * chW 0 i c) + bW c
            + a.data b c t v
        rw [hcore]
    | false =>
        show (∑ k ∈ Finset.range 2, ∑ i ∈ Finset.range cout,
            (chebT g (permute_0231 a) k).data b t v i * chW k i c)
            + a.data b c t v
          = (∑ i ∈ Finset.range cout, a.data b i t v * chW 0 i c) + 0
            + a.data b c t v
        rw [hcore, add_zero]
  · have hsel : (mkGraphConvLayer "graph_conv" cin cout Ks g bias aW aB chW gW
        bW).forward x
        = ((Align.mk cin cout aW aB).forward x).bind fun x_gc_in =>
          ((GraphConv.mk cout cout g (if bias then some bW else none)
            gW).forward x_gc_in).bind fun x_gc =>
          some (tadd (permute_0312 x_gc) x_gc_in) := rfl
    rw [hsel, ha]
    simp only [Option.some_bind]
    have hgc : (GraphConv.mk cout cout g (if bias then some bW else none)
        gW).forward a
        = some (addBiasLast (if bias then some bW else none)
          ⟨(gsoApply g (permute_0231 a)).s0, (gsoApply g (permute_0231 a)).s1,
           (gsoApply g (permute_0231 a)).s2, cout,
           fun b t h j => ∑ i ∈ Finset.range cout,
             (gsoApply g (permute_0231 a)).data b t h i * gW i j⟩) := rfl
    rw [hgc]
    simp only [Option.some_bind]
    refine ⟨_, rfl, ?_⟩
    intro b c t v
    have hcore : (∑ i ∈ Finset.range cout,
        (gsoApply g (permute_0231 a)).data b t v i * gW i c) = 0 :=
      Finset.sum_eq_zero fun i _ => by
        have hz : (gsoApply g (permute_0231 a)).data b t v i = 0 :=
          show (∑ i2 ∈ Finset.range g.n,
              g.entry v i2 * (permute_0231 a).data b t i2 i) = 0 from
            Finset.sum_eq_zero fun i2 _ => by rw [hg, zero_mul]
        rw [hz, zero_mul]
    cases bias with
    | true =>
        show (∑ i ∈ Finset.range cout,
            (gsoApply g (permute_0231 a)).data b t v i * gW i c) + bW c
            + a.data b c t v
          = bW c + a.data b c t v
        rw [hcore, zero_add]
    | false =>
        show (∑ i ∈ Finset.range cout,
            (gsoApply g (permute_0231 a)).data b t v i * gW i c)
            + a.data b c t v
          = 0 + a.data b c t v
        rw [hcore]

/-- Witness for the amended C6 at a concrete one-channel layer over the zero
operator. -/
theorem graphConvLayer_zero_gso_order_zero_term_witness :
    (∀ h i, gsoZero1.entry h i = (0 : ℚ)) ∧
    ∃ y, c6Layer.forward t1111one = some y := by
  refine ⟨fun h i => rfl, ?_⟩
  obtain ⟨⟨y, hy, _⟩, _⟩ := graphConvLayer_zero_gso_order_zero_term 1 1 2 gsoZero1
    (fun h i => rfl) true zq2 zq1 (fun _ _ _ => 1) zq2 zq1 t1111one t1111one rfl
  exact ⟨y, hy⟩

/-- Counterexample to claim C4: the attention path does not flatten
`[channel, time]` per vertex with vertex as the sequence axis — the code's
`reshape(batch, num_nodes, channels*embed_dim)` is a raw row-major reshape
that mixes axes.  On a concrete STAGCN block the forward output differs from
the spec-worded per-vertex-flattening composite at entry `(0,0,0,0)`. -/
theorem stConvBlock_attention_not_per_vertex_flatten :
    (STConvBlock.forward c4Block c4X).map (fun y => y.data 0 0 0 0)
      ≠ (specSTConvBlockForward c4Block c4X).map (fun y => y.data 0 0 0 0) := by
  have e1 : (STConvBlock.forward c4Block c4X).map (fun y => y.data 0 0 0 0)
      = some ((linApply3 c4Fcn ((attnFeat1 c4Resh c4Resh c4Resh none none).1)).data 0 0 0) :=
    rfl
  have e2 : (specSTConvBlockForward c4Block c4X).map (fun y => y.data 0 0 0 0)
      = some ((linApply3 c4Fcn ((attnFeat1 c4Flat c4Flat c4Flat none none).1)).data 0 0 0) :=
    rfl
  rw [e1, e2]
  intro h
  have h3 := Option.some.inj h
  have h4 : (biasVal c4Fcn.bias 0 + ∑ i ∈ Finset.range c4Fcn.in_features,
        c4Resh.data 0 0 1 * (if i = 0 then (1:ℚ) else 0))
      = (biasVal c4Fcn.bias 0 + ∑ i ∈ Finset.range c4Fcn.in_features,
        c4Flat.data 0 0 1 * (if i = 0 then (1:ℚ) else 0)) := h3
  have hsum : ∀ r : ℚ,
      (∑ i ∈ Finset.range c4Fcn.in_features, r * (if i = 0 then (1:ℚ) else 0)) = r := by
    intro r
    rw [Finset.sum_eq_single 0]
    · simp
    · intro b _ hb
      rw [if_neg hb, mul_zero]
    · intro h0
      exact absurd (Finset.mem_range.mpr (by norm_num [c4Fcn])) h0
  rw [hsum, hsum] at h4
  have hv : c4Resh.data 0 0 1 = c4Flat.data 0 0 1 := by
    have := add_left_cancel h4
    exact this
  have vA : c4Resh.data 0 0 1 = 18 := by
    show reluQ ((zq1 0 + ∑ ci ∈ Finset.range 1, ∑ i ∈ Finset.range 3,
        ∑ j ∈ Finset.range 1, 1 * c4X.data 0 ci (0 + i * 1) (1 + j * 1))
        + c4X.data 0 0 (0 + (3 - 1)) 1) = 18
    norm_num [Finset.sum_range_succ, Finset.sum_range_zero, c4X, zq1, reluQ, max_def]
  have vB : c4Flat.data 0 0 1 = 13 := by
    show reluQ ((zq1 0 + ∑ ci ∈ Finset.range 1, ∑ i ∈ Finset.range 3,
        ∑ j ∈ Finset.range 1, 1 * c4X.data 0 ci (1 + i * 1) (0 + j * 1))
        + c4X.data 0 0 (1 + (3 - 1)) 0) = 13
    norm_num [Finset.sum_range_succ, Finset.sum_range_zero, c4X, zq1, reluQ, max_def]
  rw [vA, vB] at hv
  norm_num at hv

/-- Claim C4 (amended): when attention fusion is enabled (`"STAGCN"`), the
block zero-pads the second temporal-gate output by one time step per side,
concatenates the three intermediates along the channel axis, reshapes the
result in row-major order to `[batch, num_nodes, channels*embed_dim]`
(mixing axes, not grouping each vertex's `[channel, time]` fiber), runs the
single-head self-attention with query = key = value equal to that reshaped
tensor and no masking, projects with the learned `fcn` (time dropped by 2),
row-major-views the permuted result back to a `[batch, channel, time,
vertex]` tensor, and that tensor replaces the second temporal-gate output
before the layer norm and dropout. -/
theorem stConvBlock_attention_row_major_fusion
    (Kt Ks nv lbc c0 c1 c2 : ℕ) (act gct : String) (g : GSO) (bias : Bool)
    (n_his l : ℕ) (p : STBlockParams) (σ τ : ℚ → ℚ) (x tmp1 g1 x2 : Tensor4)
    (h1 : (mkSTConvBlock Kt Ks nv lbc c0 c1 c2 act gct g bias n_his l "STAGCN"
        p σ τ).tmp_conv1.forward x = some tmp1)
    (h2 : (mkSTConvBlock Kt Ks nv lbc c0 c1 c2 act gct g bias n_his l "STAGCN"
        p σ τ).graph_conv.forward tmp1 = some g1)
    (h3 : (mkSTConvBlock Kt Ks nv lbc c0 c1 c2 act gct g bias n_his l "STAGCN"
        p σ τ).tmp_conv2.forward (tmap reluQ g1) = some x2) :
    ((mkSTConvBlock Kt Ks nv lbc c0 c1 c2 act gct g bias n_his l "STAGCN"
        p σ τ).forward x
      = some (applyData p.dropFn (permute_0312 (LayerNormM.forward ⟨p.lnFn⟩
          (permute_0231 (stagcnFusion
            ⟨144 * (n_his - 2 * (l + 1)), 1, p.attnF⟩
            ⟨144 * (n_his - 2 * (l + 1)), 64 * (n_his - 2 * (l + 1) - 2),
              p.fcnW, some p.fcnB⟩
            tmp1 (tmap reluQ g1) x2)))))) ∧
    (∀ (A : MultiHeadSelfAttention) (F : Linear) (t1 gr xb : Tensor4)
        (cc : Tensor4) (rr : Tensor3) (ao : Tensor3),
      cc = cat3Chan t1 gr (padTimeBoth 1 1 xb) →
      rr = reshape43 cc cc.s0 cc.s3 (cc.s1 * cc.s2) →
      ao = permute3_021 (linApply3 F ((A.attention_layer rr rr rr none none).1)) →
      stagcnFusion A F t1 gr xb
        = view34 ao cc.s0 ((ao.s0 * ao.s1 * ao.s2) / (cc.s0 * (cc.s2 - 2) * cc.s3))
            (cc.s2 - 2) cc.s3) := by
  constructor
  · unfold STConvBlock.forward
    rw [h1]
    simp only [Option.some_bind]
    rw [h2]
    simp only [Option.some_bind]
    rw [h3]
    simp only [Option.some_bind]
    rfl
  · intro A F t1 gr xb cc rr ao hcc hrr hao
    subst hcc hrr hao
    rfl

/-- Witness for the amended C4 at the evaluated STAGCN block. -/
theorem stConvBlock_attention_row_major_fusion_witness :
    ∃ y, STConvBlock.forward c4Block c4X = some y := by
  obtain ⟨hy, _⟩ := stConvBlock_attention_row_major_fusion
    3 1 2 1 142 1 1 "relu" "cheb_graph_conv" gsoZero2 false 5 0 c4P
    (fun q => q) (fun q => q) c4X c4Tmp1
    ((c4Block.graph_conv.forward c4Tmp1).getD t4default) c4X2 rfl rfl rfl
  exact ⟨_, hy⟩

/-- On a shape-compatible input and any supported activation,
`TemporalConvLayer.forward` succeeds with `c_out` channels and the time axis
shrunk by `Kt - 1`. -/
theorem tconv_forward_shape (Kt cin cout nv : ℕ) (act : String)
    (hact : act = "glu" ∨ act = "gtu" ∨ act = "relu" ∨ act = "leaky_relu" ∨ act = "silu")
    (aW : ℕ → ℕ → ℚ) (aB : ℕ → ℚ) (cW : ℕ → ℕ → ℕ → ℕ → ℚ) (cB : ℕ → ℚ)
    (σ τ : ℚ → ℚ) (x : Tensor4) (h1 : x.s1 = cin) (h2 : Kt - 1 + 1 ≤ x.s2)
    (h3 : 1 ≤ x.s3) :
    ∃ y, (mkTemporalConvLayer Kt cin cout nv act aW aB cW cB σ τ).forward x = some y ∧
      y.s0 = x.s0 ∧ y.s1 = cout ∧ y.s2 = x.s2 - (Kt - 1) ∧ y.s3 = x.s3 := by
  obtain ⟨a, _, _, _, _, _, hfwd⟩ :=
    tconv_forward_gate Kt cin cout nv act aW aB cW cB σ τ x h1 h2 h3
  rcases hact with hact | hact | hact | hact | hact <;> subst hact
  · have hg : ∀ cc : Tensor4,
        (mkTemporalConvLayer Kt cin cout nv "glu" aW aB cW cB σ τ).gate a cc
          = some (tmul (tadd (sliceChanFirst cout cc) (sliceTimeFrom (Kt - 1) a))
              (tmap σ (sliceChanLast cout cc))) := fun cc => rfl
    rw [hfwd, hg]
    exact ⟨_, rfl, rfl, by show min cout (2 * cout) = cout; omega,
      by show x.s2 - (Kt - 1) * 1 = x.s2 - (Kt - 1); omega,
      by show x.s3 - (1 - 1) * 1 = x.s3; omega⟩
  · have hg : ∀ cc : Tensor4,
        (mkTemporalConvLayer Kt cin cout nv "gtu" aW aB cW cB σ τ).gate a cc
          = some (tmul (tmap τ (tadd (sliceChanFirst cout cc) (sliceTimeFrom (Kt - 1) a)))
              (tmap σ (sliceChanLast cout cc))) := fun cc => rfl
    rw [hfwd, hg]
    exact ⟨_, rfl, rfl, by show min cout (2 * cout) = cout; omega,
      by show x.s2 - (Kt - 1) * 1 = x.s2 - (Kt - 1); omega,
      by show x.s3 - (1 - 1) * 1 = x.s3; omega⟩
  · have hg : ∀ cc : Tensor4,
        (mkTemporalConvLayer Kt cin cout nv "relu" aW aB cW cB σ τ).gate a cc
          = some (tmap reluQ (tadd cc (sliceTimeFrom (Kt - 1) a))) := fun cc => rfl
    rw [hfwd, hg]
    exact ⟨_, rfl, rfl, rfl,
      by show x.s2 - (Kt - 1) * 1 = x.s2 - (Kt - 1); omega,
      by show x.s3 - (1 - 1) * 1 = x.s3; omega⟩
  · have hg : ∀ cc : Tensor4,
        (mkTemporalConvLayer Kt cin cout nv "leaky_relu" aW aB cW cB σ τ).gate a cc
          = some (tmap leakyReluQ (tadd cc (sliceTimeFrom (Kt - 1) a))) := fun cc => rfl
    rw [hfwd, hg]
    exact ⟨_, rfl, rfl, rfl,
      by show x.s2 - (Kt - 1) * 1 = x.s2 - (Kt - 1); omega,
      by show x.s3 - (1 - 1) * 1 = x.s3; omega⟩
  · have hg : ∀ cc : Tensor4,
        (mkTemporalConvLayer Kt cin cout nv "silu" aW aB cW cB σ τ).gate a cc
          = some (tmap (fun z => z * σ z) (tadd cc (sliceTimeFrom (Kt - 1) a))) :=
      fun cc => rfl
    rw [hfwd, hg]
    exact ⟨_, rfl, rfl, rfl,
      by show x.s2 - (Kt - 1) * 1 = x.s2 - (Kt - 1); omega,
      by show x.s3 - (1 - 1) * 1 = x.s3; omega⟩

/-- On a shape-compatible input, `GraphConvLayer.forward` with a known
convolution type succeeds with `c_out` channels and the other axes
unchanged. -/
theorem gclayer_forward_shape (gct : String) (cin cout Ks : ℕ) (g : GSO)
    (bias : Bool) (aW : ℕ → ℕ → ℚ) (aB : ℕ → ℚ) (chW : ℕ → ℕ → ℕ → ℚ)
    (gW : ℕ → ℕ → ℚ) (bW : ℕ → ℚ) (x : Tensor4) (h1 : x.s1 = cin)
    (hgn : g.n = x.s3)
    (hgct : (gct = "cheb_graph_conv" ∧ 1 ≤ Ks) ∨ gct = "graph_conv") :
    ∃ y, (mkGraphConvLayer gct cin cout Ks g bias aW aB chW gW bW).forward x = some y ∧
      y.s0 = x.s0 ∧ y.s1 = cout ∧ y.s2 = x.s2 ∧ y.s3 = x.s3 := by
  obtain ⟨a, ha, ha0, ha1, ha2, ha3⟩ := align_forward_shape ⟨cin, cout, aW, aB⟩ x h1
  rcases hgct with ⟨hc, hKs⟩ | hc <;> subst hc <;> cases bias
  · have hsel : (mkGraphConvLayer "cheb_graph_conv" cin cout Ks g false aW aB chW gW
        bW).forward x
        = ((Align.mk cin cout aW aB).forward x).bind fun xi =>
          ((ChebGraphConv.mk cout cout Ks g none chW).forward xi).bind fun xg =>
          some (tadd (permute_0312 xg) xi) := rfl
    rw [hsel, ha]
    simp only [Option.some_bind]
    have hcheb : (ChebGraphConv.mk cout cout Ks g none chW).forward a
        = some (addBiasLast none
          ⟨(permute_0231 a).s0, (permute_0231 a).s1, (permute_0231 a).s2, cout,
           fun b t h j => ∑ k ∈ Finset.range Ks, ∑ i ∈ Finset.range cout,
             (chebT g (permute_0231 a) k).data b t h i * chW k i j⟩) := by
      unfold ChebGraphConv.forward
      rw [if_neg]
      exact (by omega : ¬ Ks = 0)
    rw [hcheb]
    simp only [Option.some_bind]
    exact ⟨_, rfl, ha0, rfl, ha2, ha3⟩
  · have hsel : (mkGraphConvLayer "cheb_graph_conv" cin cout Ks g true aW aB chW gW
        bW).forward x
        = ((Align.mk cin cout aW aB).forward x).bind fun xi =>
          ((ChebGraphConv.mk cout cout Ks g (some bW) chW).forward xi).bind fun xg =>
          some (tadd (permute_0312 xg) xi) := rfl
    rw [hsel, ha]
    simp only [Option.some_bind]
    have hcheb : (ChebGraphConv.mk cout cout Ks g (some bW) chW).forward a
        = some (addBiasLast (some bW)
          ⟨(permute_0231 a).s0, (permute_0231 a).s1, (permute_0231 a).s2, cout,
           fun b t h j => ∑ k ∈ Finset.range Ks, ∑ i ∈ Finset.range cout,
             (chebT g (permute_0231 a) k).data b t h i * chW k i j⟩) := by
      unfold ChebGraphConv.forward
      rw [if_neg]
      exact (by omega : ¬ Ks = 0)
    rw [hcheb]
    simp only [Option.some_bind]
    exact ⟨_, rfl, ha0, rfl, ha2, ha3⟩
  · have hsel : (mkGraphConvLayer "graph_conv" cin cout Ks g false aW aB chW gW
        bW).forward x
        = ((Align.mk cin cout aW aB).forward x).bind fun xi =>
          ((GraphConv.mk cout cout g none gW).forward xi).bind fun xg =>
          some (tadd (permute_0312 xg) xi) := rfl
    rw [hsel, ha]
    simp only [Option.some_bind]
    refine ⟨_, rfl, ha0, rfl, ha2, ?_⟩
    show g.n = x.s3
    exact hgn
  · have hsel : (mkGraphConvLayer "graph_conv" cin cout Ks g true aW aB chW gW
        bW).forward x
        = ((Align.mk cin cout aW aB).forward x).bind fun xi =>
          ((GraphConv.mk cout cout g (some bW) gW).forward xi).bind fun xg =>
          some (tadd (permute_0312 xg) xi) := rfl
    rw [hsel, ha]
    simp only [Option.some_bind]
    refine ⟨_, rfl, ha0, rfl, ha2, ?_⟩
    show g.n = x.s3
    exact hgn

/-- A plain-variant (`use_attn ≠ "STAGCN"`) `[64, 16, 64]`-channel
`STConvBlock` succeeds on a shape-compatible input, producing 64 channels
and shrinking the time axis by `2*(Kt - 1)`. -/
theorem stblock_forward_shape (Kt Ks nv lbc : ℕ) (act gct : String) (g : GSO)
    (bias : Bool) (n_his l : ℕ) (ua : String) (p : STBlockParams) (σ τ : ℚ → ℚ)
    (hact : act = "glu" ∨ act = "gtu" ∨ act = "relu" ∨ act = "leaky_relu" ∨ act = "silu")
    (hgct : (gct = "cheb_graph_conv" ∧ 1 ≤ Ks) ∨ gct = "graph_conv")
    (hua : ua ≠ "STAGCN") (x : Tensor4) (h1 : x.s1 = lbc)
    (h2 : 2 * (Kt - 1) + 1 ≤ x.s2) (h3 : 1 ≤ x.s3) (hgn : g.n = x.s3) :
    ∃ y, (mkSTConvBlock Kt Ks nv lbc 64 16 64 act gct g bias n_his l ua
        p σ τ).forward x = some y ∧
      y.s0 = x.s0 ∧ y.s1 = 64 ∧ y.s2 = x.s2 - 2 * (Kt - 1) ∧ y.s3 = x.s3 := by
  obtain ⟨t1, ht1, e0, e1, e2, e3⟩ := tconv_forward_shape Kt lbc 64 nv act hact
    p.t1aW p.t1aB p.t1cW p.t1cB σ τ x h1 (by omega) h3
  obtain ⟨g1, hg1, f0, f1, f2, f3⟩ := gclayer_forward_shape gct 64 16 Ks g bias
    p.gaW p.gaB p.chW p.gW p.gB t1 e1 (by rw [e3]; exact hgn) hgct
  obtain ⟨x2, hx2, k0, k1, k2, k3⟩ := tconv_forward_shape Kt 16 64 nv act hact
    p.t2aW p.t2aB p.t2cW p.t2cB σ τ (tmap reluQ g1)
    (show g1.s1 = 16 from f1)
    (by show Kt - 1 + 1 ≤ g1.s2; rw [f2, e2]; omega)
    (by show 1 ≤ g1.s3; rw [f3, e3]; omega)
  have hb1 : (mkSTConvBlock Kt Ks nv lbc 64 16 64 act gct g bias n_his l ua
      p σ τ).tmp_conv1.forward x = some t1 := ht1
  have hb2 : (mkSTConvBlock Kt Ks nv lbc 64 16 64 act gct g bias n_his l ua
      p σ τ).graph_conv.forward t1 = some g1 := hg1
  have hb3 : (mkSTConvBlock Kt Ks nv lbc 64 16 64 act gct g bias n_his l ua
      p σ τ).tmp_conv2.forward (tmap reluQ g1) = some x2 := hx2
  unfold STConvBlock.forward
  rw [hb1]
  simp only [Option.some_bind]
  rw [hb2]
  simp only [Option.some_bind]
  rw [hb3]
  simp only [Option.some_bind]
  rw [if_neg (show ¬(mkSTConvBlock Kt Ks nv lbc 64 16 64 act gct g bias n_his l ua
      p σ τ).use_attn = "STAGCN" from hua)]
  refine ⟨_, rfl, ?_, ?_, ?_, ?_⟩
  · show x2.s0 = x.s0
    rw [k0]
    show g1.s0 = x.s0
    rw [f0, e0]
  · exact k1
  · show x2.s2 = x.s2 - 2 * (Kt - 1)
    rw [k2]
    show g1.s2 - (Kt - 1) = x.s2 - 2 * (Kt - 1)
    rw [f2, e2]
    omega
  · show x2.s3 = x.s3
    rw [k3]
    show g1.s3 = x.s3
    rw [f3, e3]

/-- Folding a run of uniform `[64, 16, 64]` plain-variant blocks over a
64-channel input succeeds, shrinking the time axis by `2*(Kt - 1)` per
block. -/
theorem fold_blocks_shape (Kt Ks nv : ℕ) (act gct : String) (g : GSO)
    (bias : Bool) (n_his : ℕ) (ua : String) (ps : ℕ → STBlockParams)
    (σ τ : ℚ → ℚ)
    (hact : act = "glu" ∨ act = "gtu" ∨ act = "relu" ∨ act = "leaky_relu" ∨ act = "silu")
    (hgct : (gct = "cheb_graph_conv" ∧ 1 ≤ Ks) ∨ gct = "graph_conv")
    (hua : ua ≠ "STAGCN") :
    ∀ (m s : ℕ) (x : Tensor4), x.s1 = 64 → 1 + 2 * (Kt - 1) * m ≤ x.s2 →
      1 ≤ x.s3 → g.n = x.s3 →
    ∃ y, List.foldlM (fun t blk => STConvBlock.forward blk t) x
        ((List.range' s m).map fun l =>
          mkSTConvBlock Kt Ks nv 64 64 16 64 act gct g bias n_his l ua (ps l) σ τ)
        = some y ∧
      y.s0 = x.s0 ∧ y.s1 = 64 ∧ y.s2 = x.s2 - 2 * (Kt - 1) * m ∧ y.s3 = x.s3 := by
  intro m
  induction m with
  | zero =>
      intro s x h1 h2 h3 hgn
      exact ⟨x, rfl, rfl, h1, by omega, rfl⟩
  | succ m ih =>
      intro s x h1 h2 h3 hgn
      have hmul : 2 * (Kt - 1) * (m + 1) = 2 * (Kt - 1) * m + 2 * (Kt - 1) := by
        ring
      rw [List.range'_succ, List.map_cons, List.foldlM_cons]
      obtain ⟨y1, hy1, a0, a1, a2, a3⟩ := stblock_forward_shape Kt Ks nv 64 act gct
        g bias n_his s ua (ps s) σ τ hact hgct hua x h1 (by omega) h3 hgn
      rw [hy1]
      obtain ⟨y, hy, b0, b1, b2, b3⟩ := ih (s + 1) y1 a1
        (by rw [a2]; omega) (by rw [a3]; exact h3) (by rw [a3]; exact hgn)
      exact ⟨y, hy, b0.trans a0, b1, by rw [b2, a2]; omega, b3.trans a3⟩

/-- A successfully constructed `OutputBlock` succeeds on a shape-compatible
input, producing `end_channel` channels and shrinking the time axis by
`Ko - 1`. -/
theorem outblock_forward_shape (Ko lbc c0 c1 endc nv : ℕ) (act : String)
    (hact : act = "glu" ∨ act = "gtu" ∨ act = "relu" ∨ act = "leaky_relu" ∨ act = "silu")
    (bias : Bool) (p : OutParams) (σ τ : ℚ → ℚ) (ob : OutputBlock)
    (hob : mkOutputBlock Ko lbc c0 c1 endc nv act bias p σ τ = some ob)
    (x : Tensor4) (h1 : x.s1 = lbc) (h2 : Ko - 1 + 1 ≤ x.s2) (h3 : 1 ≤ x.s3) :
    ∃ y, ob.forward x = some y ∧ y.s0 = x.s0 ∧ y.s1 = endc ∧
      y.s2 = x.s2 - (Ko - 1) ∧ y.s3 = x.s3 := by
  simp only [mkOutputBlock] at hob
  cases htr : (mkTemporalConvLayer Ko lbc c0 nv act p.taW p.taB p.tcW p.tcB
      σ τ).forward zTrial with
  | none =>
      rw [htr] at hob
      exact Option.noConfusion hob
  | some z =>
      rw [htr] at hob
      have hf1 : ob.tmp_conv1
          = mkTemporalConvLayer Ko lbc c0 nv act p.taW p.taB p.tcW p.tcB σ τ :=
        (congrArg OutputBlock.tmp_conv1 (Option.some.inj hob)).symm
      have hf3 : ob.fc2.out_features = endc :=
        (congrArg (fun o => o.fc2.out_features) (Option.some.inj hob)).symm
      obtain ⟨y1, hy1, e0, e1, e2, e3⟩ := tconv_forward_shape Ko lbc c0 nv act hact
        p.taW p.taB p.tcW p.tcB σ τ x h1 h2 h3
      unfold OutputBlock.forward
      rw [hf1, hy1]
      simp only [Option.some_bind]
      refine ⟨_, rfl, ?_, ?_, ?_, ?_⟩
      · exact e0
      · show ob.fc2.out_features = endc
        exact hf3
      · exact e2
      · exact e3

/-- Claim C1: for every valid configuration with
`Ko = n_his - (Kt-1)*2*stblock_num ≥ 1`, the assembled model's forward pass
on a `[batch, 1, n_his, n_vertex]` input produces an output whose time axis
has length exactly 1 (and shape `[batch, 1, 1, n_vertex]`): each
SpatioTemporalBlock shrinks the time length by `2*(Kt-1)` and the
OutputBlock's temporal layer of kernel size `Ko` collapses the remaining
`Ko` steps to 1.  Stated for the plain (non-attention) variant and the
supported activation/graph-conv names. -/
theorem model_forward_time_length_one (Kt Ks nv n_his stblock_num : ℕ)
    (act gct ua : String) (g : GSO) (bias : Bool) (ps : ℕ → STBlockParams)
    (op : OutParams) (σ τ : ℚ → ℚ) (M : Model)
    (hact : act = "glu" ∨ act = "gtu" ∨ act = "relu" ∨ act = "leaky_relu" ∨ act = "silu")
    (hgct : (gct = "cheb_graph_conv" ∧ 1 ≤ Ks) ∨ gct = "graph_conv")
    (hua : ua ≠ "STAGCN")
    (hKo : 1 ≤ n_his - (Kt - 1) * 2 * stblock_num)
    (hM : mkModel Kt Ks nv n_his stblock_num act gct ua g bias ps op σ τ = some M)
    (x : Tensor4) (hx1 : x.s1 = 1) (hx2 : x.s2 = n_his) (hx3 : x.s3 = nv)
    (hnv : 1 ≤ nv) (hgn : g.n = nv) :
    ∃ y, M.forward x = some y ∧ y.s0 = x.s0 ∧ y.s1 = 1 ∧ y.s2 = 1 ∧ y.s3 = nv := by
  simp only [mkModel] at hM
  have hsn : stblock_num ≠ 0 := by
    rintro rfl
    rw [show (if (0 : ℕ) = 0 then (1 : ℕ) else 64) = 1 from rfl] at hM
    rw [mkOutputBlock_fails (n_his - (Kt - 1) * 2 * 0) 1 128 128 1 nv act bias op
      σ τ (Or.inl (by omega))] at hM
    exact Option.noConfusion hM
  rw [if_neg hsn] at hM
  cases hob : mkOutputBlock (n_his - (Kt - 1) * 2 * stblock_num) 64 128 128 1 nv
      act bias op σ τ with
  | none =>
      rw [hob] at hM
      exact Option.noConfusion hM
  | some ob =>
      rw [hob] at hM
      simp only [Option.map_some'] at hM
      obtain rfl : M = _ := (Option.some.inj hM).symm
      obtain ⟨m, rfl⟩ : ∃ m, stblock_num = m + 1 := ⟨stblock_num - 1, by omega⟩
      have hmul : 2 * (Kt - 1) * (m + 1) = 2 * (Kt - 1) * m + 2 * (Kt - 1) := by
        ring
      have hmul2 : (Kt - 1) * 2 * (m + 1) = 2 * (Kt - 1) * m + 2 * (Kt - 1) := by
        ring
      obtain ⟨y1, hy1, a0, a1, a2, a3⟩ := stblock_forward_shape Kt Ks nv 1 act gct
        g bias n_his 0 ua (ps 0) σ τ hact hgct hua x hx1 (by omega)
        (by rw [hx3]; exact hnv) (by rw [hx3]; exact hgn)
      have hlist : (List.range (m + 1)).map (fun l => mkSTConvBlock Kt Ks nv
            (if l = 0 then 1 else 64) 64 16 64 act gct g bias n_his l ua (ps l) σ τ)
          = mkSTConvBlock Kt Ks nv 1 64 16 64 act gct g bias n_his 0 ua (ps 0) σ τ
            :: (List.range' 1 m).map (fun l =>
              mkSTConvBlock Kt Ks nv 64 64 16 64 act gct g bias n_his l ua (ps l) σ τ) := by
        rw [List.range_eq_range', List.range'_succ, List.map_cons]
        congr 1
        apply List.map_congr_left
        intro l hl
        have hl1 : 1 ≤ l := by
          have := List.mem_range'_1.mp hl
          omega
        rw [if_neg (by omega)]
      obtain ⟨y2, hy2, b0, b1, b2, b3⟩ := fold_blocks_shape Kt Ks nv act gct g bias
        n_his ua ps σ τ hact hgct hua m 1 y1 a1 (by rw [a2, hx2]; omega)
        (by rw [a3, hx3]; exact hnv) (by rw [a3, hx3]; exact hgn)
      obtain ⟨y3, hy3, c0a, c1a, c2a, c3a⟩ := outblock_forward_shape
        (n_his - (Kt - 1) * 2 * (m + 1)) 64 128 128 1 nv act hact bias op σ τ ob
        hob y2 b1 (by rw [b2, a2, hx2]; omega)
        (by rw [b3, a3, hx3]; exact hnv)
      unfold Model.forward
      rw [show (Model.mk ((List.range (m + 1)).map (fun l => mkSTConvBlock Kt Ks nv
            (if l = 0 then 1 else 64) 64 16 64 act gct g bias n_his l ua (ps l) σ τ))
            ob).st_blocks
          = (List.range (m + 1)).map (fun l => mkSTConvBlock Kt Ks nv
            (if l = 0 then 1 else 64) 64 16 64 act gct g bias n_his l ua (ps l) σ τ)
          from rfl, hlist, List.foldlM_cons, hy1]
      have hbind : ((some y1 : Option Tensor4) >>= fun b2 =>
          List.foldlM (fun t blk => STConvBlock.forward blk t) b2
            ((List.range' 1 m).map (fun l =>
              mkSTConvBlock Kt Ks nv 64 64 16 64 act gct g bias n_his l ua (ps l) σ τ)))
          = List.foldlM (fun t blk => STConvBlock.forward blk t) y1
            ((List.range' 1 m).map (fun l =>
              mkSTConvBlock Kt Ks nv 64 64 16 64 act gct g bias n_his l ua (ps l) σ τ)) :=
        rfl
      rw [hbind, hy2]
      simp only [Option.some_bind]
      refine ⟨y3, hy3, ?_, c1a, ?_, ?_⟩
      · rw [c0a, b0, a0]
      · rw [c2a, b2, a2, hx2]
        omega
      · rw [c3a, b3, a3, hx3]

/-- Witness for C1: a concrete `Kt = 2`, one-block, history-4 configuration
(`Ko = 2`) whose construction succeeds and whose forward pass yields a
`[1, 1, 1, 1]` output. -/
theorem model_forward_time_length_one_witness :
    (1 ≤ (4 : ℕ) - (2 - 1) * 2 * 1) ∧
    ∃ M y, c1Model = some M ∧ M.forward c1X = some y ∧
      y.s0 = 1 ∧ y.s1 = 1 ∧ y.s2 = 1 ∧ y.s3 = 1 := by
  refine ⟨by decide, ?_⟩
  have hs : c1Model.isSome = true := rfl
  obtain ⟨y, hy, h0, h1, h2, h3⟩ := model_forward_time_length_one 2 1 1 4 1
    "relu" "cheb_graph_conv" "STGCN" gsoZero1 false (fun _ => zeroBP) zeroOP
    (fun q => q) (fun q => q) (c1Model.get hs)
    (Or.inr (Or.inr (Or.inl rfl))) (Or.inl ⟨rfl, by decide⟩) (by decide)
    (by decide) (Option.some_get hs).symm c1X rfl rfl rfl (by decide) rfl
  exact ⟨c1Model.get hs, y, (Option.some_get hs).symm, hy, h0.trans rfl, h1, h2, h3⟩
